import Mathlib

/-!
Verification development for the `coal` document-store access layer of the
`fire` repository: the `Manager` CRUD operations (src/coal/manager.go), the
`Store` transaction boundary (src/coal/id.go), the collection helpers
(`IsMissing`, src/unnamed/part_005) and the change stream (src/unnamed/part_006).

The Go code is shallowly embedded as pure Lean functions.  Stateful driver
calls are modelled by explicit state passing: every manager operation takes a
driver state `s : σ` together with a `Collection σ` record of driver
functions, and returns the final state, the ordered list of driver calls it
performed, and its Go result (`Except Err α` standing for the `(value, error)`
pair).  The MongoDB driver itself is an external collaborator of the
repository, so `Collection` is kept abstract; `refColl` below is a reference
instantiation with standard document-store semantics used to exercise the
operations on concrete databases.  Randomness (`coal.New()` object ids and
upsert tokens) is passed in as an explicit argument.
-/

namespace Fire

/-- Document identifiers: `coal.ID` is a string alias (src/coal/id.go). -/
abbrev ID := String

/-- A stored document.  The `coal.Base` fields tracked by the manager are
embedded structurally: the document id (`_id`), the lock counter (`_lk`) and
the upsert token (`_tk`, the zero value being the empty string as in Go).
All remaining model attributes are an abstract field assignment. -/
structure Doc where
  id : ID := ""
  lock : Int := 0
  token : ID := ""
  attrs : List (String × Int) := []
  deriving Repr, DecidableEq

/-- Model metadata identity (`*coal.Meta`); only pointer identity is compared
by the manager (`GetMeta(model) != m.meta`), so an abstract tag suffices. -/
abbrev Meta := Nat

/-- A caller-supplied model value: its meta tag and its document content. -/
structure ModelArg where
  meta : Meta := 0
  doc : Doc := {}
  deriving Repr, DecidableEq

/-- Operation flags bitset (manager.go). -/
abbrev Flags := Nat

/-- NoTransaction flag (`1 << 0`). -/
def NoTransaction : Flags := 1

/-- NoValidation flag (`1 << 1`). -/
def NoValidation : Flags := 2

/-- TextScoreSort flag (`1 << 2`). -/
def TextScoreSort : Flags := 4

/-- `Flags.Has`: whether the receiver has set all provided flags. -/
def Has (f flags : Flags) : Bool := f &&& flags == flags

/-- `coal.Merge`: bitwise OR of the provided flags. -/
def Merge (flags : List Flags) : Flags := flags.foldl (· ||| ·) 0

/-- A request context.  The only context key read by this layer is the
transaction marker (id.go `hasTransaction`); other context content is an
abstract payload so that passing a context along unchanged is observable. -/
structure Ctx where
  hasTx : Bool := false
  data : Nat := 0
  deriving Repr, DecidableEq

/-- `coal.HasTransaction`: whether the context carries a transaction. -/
def HasTransaction (ctx : Ctx) : Bool := ctx.hasTx

/-- Opaque translation error produced by the `Translator` collaborator. -/
abbrev TransErr := Nat

/-- Opaque validation error produced by a model's `Validate()` hook. -/
abbrev VErr := Nat

/-- A raw driver error: `lungo.ErrNoDocuments` or any other driver error. -/
inductive DErr
  | noDocuments
  | other (n : Nat)
  deriving Repr, DecidableEq

/-- `coal.IsMissing` (src/unnamed/part_005): whether a driver error describes
a missing document, i.e. it is `lungo.ErrNoDocuments`. -/
def IsMissing (e : DErr) : Bool := e == DErr.noDocuments

/-- Error values returned by the embedded operations.  Distinguished errors
(`ErrTransactionRequired`, `ErrMetaMismatch`, `ErrInvalidated`, `ErrStop`) and
the `xo.F` formatted errors of manager.go get their own constructors; wrapped
translation, validation and driver errors keep their payload. -/
inductive Err
  | transactionRequired
  | metaMismatch
  | cannotLockWithSkip
  | cannotLockWithSkipAndLimit
  | missingList
  | expectedSlicePointer
  | expectedMatchingModels
  | zeroID
  | translation (e : TransErr)
  | validation (e : VErr)
  | driver (e : DErr)
  | invalidated
  | stop
  | receiverErr (n : Nat)
  deriving Repr, DecidableEq

/-- A caller-supplied BSON map (`bson.M`) before translation: either an opaque
caller filter/update map or the literal id filter built by `Manager.Project`. -/
inductive BsonM
  | raw (n : Nat)
  | idEq (i : ID)
  deriving Repr, DecidableEq

/-- A translated BSON document (`bson.D`) handed to the driver.  The driver
interprets it as a predicate when it is used as a filter and as a
transformation when it is used as an update; both readings are carried.  The
entries the manager itself injects — `$inc: {_lk: 1}` (via `incrementLock` or
`bsonkit.Put "$inc._lk"`), `$setOnInsert._tk` and `$setOnInsert: model` — are
tracked structurally so theorems can observe them. -/
structure BsonD where
  pred : Doc → Bool := fun _ => true
  app : Doc → Doc := fun d => d
  incLock : Bool := false
  insertToken : Option ID := none
  insertDoc : Option Doc := none

/-- The `incrementLock` update document of manager.go: `{$inc: {_lk: 1}}`. -/
def incrementLock : BsonD := { incLock := true }

/-- `bsonkit.Put(&updateDoc, "$inc._lk", 1, false)`: add the lock increment to
a translated update document.  (The `bsonkit.Put` error path is unreachable
for these fixed paths and is not modelled.) -/
def putIncLock (u : BsonD) : BsonD := { u with incLock := true }

/-- `bsonkit.Put(&updateDoc, "$setOnInsert._tk", token, false)`. -/
def putInsertToken (u : BsonD) (tk : ID) : BsonD := { u with insertToken := some tk }

/-- A translated sort document (`bson.D` from `Translator.Sort`), opaque. -/
abbrev SortD := List String

/-- The external `Translator` collaborator (treated as opaque per the spec):
converts generic filter/update maps, sort field lists and field names, and
reports translation errors. -/
structure Translator where
  document : BsonM → Except TransErr BsonD
  sort : List String → Except TransErr SortD
  field : String → Except TransErr String

/-- Translate a filter/update map, wrapping the error as the manager returns it. -/
def translateDocE (t : Translator) (m : BsonM) : Except Err BsonD :=
  match t.document m with
  | .ok d => .ok d
  | .error e => .error (.translation e)

/-- The repeated sort-translation pattern of manager.go: the sort is only
translated (and only set on the options) when the sort list is non-empty. -/
def translateSortE (t : Translator) (sort : List String) : Except Err (Option SortD) :=
  if sort.isEmpty then .ok none
  else match t.sort sort with
    | .ok sd => .ok (some sd)
    | .error e => .error (.translation e)

/-- Translate a field name, wrapping the error. -/
def translateFieldE (t : Translator) (f : String) : Except Err String :=
  match t.field f with
  | .ok f' => .ok f'
  | .error e => .error (.translation e)

/-- A driver filter: the literal `bson.M{"_id": id}` maps built by the manager,
or a translated caller filter. -/
inductive Filter
  | byId (i : ID)
  | byDoc (d : BsonD)

/-- Which documents a filter matches. -/
def Filter.matches : Filter → Doc → Bool
  | .byId i, d => d.id == i
  | .byDoc b, d => b.pred d

/-- Options for `FindOne`. -/
structure FindOneOpts where
  sort : Option SortD := none
  skip : Int := 0

/-- Options for `FindOneAndUpdate`. -/
structure FoauOpts where
  retAfter : Bool := false
  upsert : Bool := false
  sort : Option SortD := none

/-- The `returnAfterUpdate` options value of manager.go. -/
def returnAfterUpdate : FoauOpts := { retAfter := true }

/-- Options for `Find` (cursor queries). -/
structure FindOpts where
  sort : Option SortD := none
  skip : Int := 0
  limit : Int := 0
  projection : Option String := none

/-- A `mongo.UpdateResult`. -/
structure UpdateResult where
  matchedCount : Int := 0
  modifiedCount : Int := 0
  upsertedCount : Int := 0
  deriving Repr, DecidableEq

/-- A `mongo.DeleteResult`. -/
structure DeleteResult where
  deletedCount : Int := 0
  deriving Repr, DecidableEq

/-- One driver call performed by a manager operation, with its arguments.
The operation list mirrors the `Collection` wrapper of src/unnamed/part_005. -/
inductive Call
  | findOne (f : Filter) (o : FindOneOpts)
  | findOneAndUpdate (f : Filter) (u : BsonD) (o : FoauOpts)
  | findOneAndDelete (f : Filter) (sort : Option SortD)
  | find (f : Filter) (o : FindOpts)
  | countDocuments (f : Filter) (skip limit : Int)
  | distinct (field : String) (f : Filter)
  | updateOne (f : Filter) (u : BsonD) (upsert : Bool)
  | updateMany (f : Filter) (u : BsonD)
  | replaceOne (f : Filter) (d : Doc)
  | insertOne (d : Doc)
  | insertMany (ds : List Doc)
  | deleteOne (f : Filter)
  | deleteMany (f : Filter)

/-- The driver collection interface (external collaborator): each method maps
a driver state to a new state and a result. -/
structure Collection (σ : Type) where
  findOne : σ → Filter → FindOneOpts → σ × Except DErr Doc
  findOneAndUpdate : σ → Filter → BsonD → FoauOpts → σ × Except DErr Doc
  findOneAndDelete : σ → Filter → Option SortD → σ × Except DErr Doc
  find : σ → Filter → FindOpts → σ × Except DErr (List Doc)
  countDocuments : σ → Filter → Int → Int → σ × Except DErr Int
  distinct : σ → String → Filter → σ × Except DErr (List Int)
  updateOne : σ → Filter → BsonD → Bool → σ × Except DErr UpdateResult
  updateMany : σ → Filter → BsonD → σ × Except DErr UpdateResult
  replaceOne : σ → Filter → Doc → σ × Except DErr UpdateResult
  insertOne : σ → Doc → σ × Except DErr Unit
  insertMany : σ → List Doc → σ × Except DErr Unit
  deleteOne : σ → Filter → σ × Except DErr DeleteResult
  deleteMany : σ → Filter → σ × Except DErr DeleteResult

/-- The result of a manager operation: final driver state, the ordered driver
calls performed, and the Go `(value, error)` outcome. -/
abbrev MRes (σ α : Type) := σ × List Call × Except Err α

/-- The manager bound to one model type (manager.go `Manager`): its meta tag,
its collection, its translator and the model type's `Validate()` hook. -/
structure Manager (σ : Type) where
  meta : Meta
  coll : Collection σ
  trans : Translator
  validate : Doc → Option VErr

/-- `Manager.Find` (manager.go): find the document with the specified id,
optionally under a write lock.  `model` is the caller's model buffer (Go `nil`
is `none`); the decoded document is returned in the `ok` payload.  Tracing
(`xo.Trace`) is a no-op for the data semantics and is not modelled. -/
def Manager.Find {σ : Type} (m : Manager σ) (ctx : Ctx) (model : Option ModelArg)
    (i : ID) (lock : Bool) (flags : List Flags) (s : σ) : MRes σ (Option Doc) :=
  -- check lock
  if lock && !HasTransaction ctx then (s, [], .error .transactionRequired) else
  -- ensure model (nil models are replaced by a fresh `m.meta.Make()` instance)
  let model := model.getD { meta := m.meta }
  -- check model
  if model.meta != m.meta then (s, [], .error .metaMismatch) else
  -- prepare filter
  let filter := Filter.byId i
  -- find document
  let (call, s1, res) :=
    if lock then
      let (s1, r) := m.coll.findOneAndUpdate s filter incrementLock returnAfterUpdate
      (Call.findOneAndUpdate filter incrementLock returnAfterUpdate, s1, r)
    else
      let (s1, r) := m.coll.findOne s filter {}
      (Call.findOne filter {}, s1, r)
  match res with
  | .error e =>
    if IsMissing e then (s1, [call], .ok none)
    else (s1, [call], .error (.driver e))
  | .ok d =>
    -- validate model
    if !(Has (Merge flags) NoValidation) then
      match m.validate d with
      | some e => (s1, [call], .error (.validation e))
      | none => (s1, [call], .ok (some d))
    else (s1, [call], .ok (some d))

/-- `Manager.FindFirst` (manager.go): find the first document matching the
filter, optionally under a write lock; locking with a skip is rejected. -/
def Manager.FindFirst {σ : Type} (m : Manager σ) (ctx : Ctx) (model : Option ModelArg)
    (filter : BsonM) (sort : List String) (skip : Int) (lock : Bool)
    (flags : List Flags) (s : σ) : MRes σ (Option Doc) :=
  -- check lock
  if lock && !HasTransaction ctx then (s, [], .error .transactionRequired) else
  -- check lock
  if lock && decide (0 < skip) then (s, [], .error .cannotLockWithSkip) else
  -- check model
  let model := model.getD { meta := m.meta }
  if model.meta != m.meta then (s, [], .error .metaMismatch) else
  -- translate filter
  match translateDocE m.trans filter with
  | .error e => (s, [], .error e)
  | .ok filterDoc =>
  -- translate sort
  match translateSortE m.trans sort with
  | .error e => (s, [], .error e)
  | .ok sortDoc =>
  -- find document
  let (call, s1, res) :=
    if lock then
      let opts : FoauOpts := { retAfter := true, sort := sortDoc }
      let (s1, r) := m.coll.findOneAndUpdate s (.byDoc filterDoc) incrementLock opts
      (Call.findOneAndUpdate (.byDoc filterDoc) incrementLock opts, s1, r)
    else
      let opts : FindOneOpts := { sort := sortDoc, skip := if 0 < skip then skip else 0 }
      let (s1, r) := m.coll.findOne s (.byDoc filterDoc) opts
      (Call.findOne (.byDoc filterDoc) opts, s1, r)
  match res with
  | .error e =>
    if IsMissing e then (s1, [call], .ok none)
    else (s1, [call], .error (.driver e))
  | .ok d =>
    -- validate model
    if !(Has (Merge flags) NoValidation) then
      match m.validate d with
      | some e => (s1, [call], .error (.validation e))
      | none => (s1, [call], .ok (some d))
    else (s1, [call], .ok (some d))

/-- The shape of the `list interface{}` argument of `Manager.FindAll` as seen
by its reflection checks: a nil value, a non-slice-pointer value, or a pointer
to a slice whose (struct or pointer) element type has the given meta. -/
inductive ListArg
  | missing
  | notSlicePtr
  | slice (elem : Meta)
  deriving Repr, DecidableEq

/-- Run `Validate()` over decoded documents, returning the first failure. -/
def validateAll (v : Doc → Option VErr) : List Doc → Option VErr
  | [] => none
  | d :: ds =>
    match v d with
    | some e => some e
    | none => validateAll v ds

/-- `Manager.FindAll` (manager.go): find all documents matching the filter.
Requires a transaction unless the `NoTransaction` flag is set; locking with a
skip or limit is rejected. -/
def Manager.FindAll {σ : Type} (m : Manager σ) (ctx : Ctx) (list : ListArg)
    (filter : BsonM) (sort : List String) (skip limit : Int) (lock : Bool)
    (flags : List Flags) (s : σ) : MRes σ (List Doc) :=
  -- check list
  match list with
  | .missing => (s, [], .error .missingList)
  | .notSlicePtr => (s, [], .error .expectedSlicePointer)
  | .slice elem =>
  if elem != m.meta then (s, [], .error .expectedMatchingModels) else
  -- require transaction if locked or not unsafe
  if (lock || !(Has (Merge flags) NoTransaction)) && !HasTransaction ctx then
    (s, [], .error .transactionRequired) else
  -- check lock
  if lock && (decide (0 < skip) || decide (0 < limit)) then
    (s, [], .error .cannotLockWithSkipAndLimit) else
  -- translate filter
  match translateDocE m.trans filter with
  | .error e => (s, [], .error e)
  | .ok filterDoc =>
  -- set sort
  match translateSortE m.trans sort with
  | .error e => (s, [], .error e)
  | .ok sortDoc =>
  -- prepare options (skip and limit are only set when positive)
  let opts : FindOpts := { sort := sortDoc, skip := if 0 < skip then skip else 0,
                           limit := if 0 < limit then limit else 0 }
  -- handle text score sort: set the `_sc` projection and prepend a score sort
  let opts :=
    if Has (Merge flags) TextScoreSort then
      { opts with projection := some "_sc",
                  sort := some ("_sc:textScore" :: (opts.sort.getD [])) }
    else opts
  -- lock documents
  let (lockCalls, s1, lockErr) :=
    if lock then
      let (s1, r) := m.coll.updateMany s (.byDoc filterDoc) incrementLock
      match r with
      | .error e => ([Call.updateMany (.byDoc filterDoc) incrementLock], s1, some (Err.driver e))
      | .ok _ => ([Call.updateMany (.byDoc filterDoc) incrementLock], s1, none)
    else ([], s, none)
  match lockErr with
  | some e => (s1, lockCalls, .error e)
  | none =>
  -- find documents
  let (s2, r) := m.coll.find s1 (.byDoc filterDoc) opts
  let calls := lockCalls ++ [Call.find (.byDoc filterDoc) opts]
  match r with
  | .error e => (s2, calls, .error (.driver e))
  | .ok docs =>
    -- validate models
    if !(Has (Merge flags) NoValidation) then
      match validateAll m.validate docs with
      | some e => (s2, calls, .error (.validation e))
      | none => (s2, calls, .ok docs)
    else (s2, calls, .ok docs)

/-- The `ManagedIterator` returned by `Manager.FindEach`: the cursor contents
(the cursor is abstracted to an eager list) and its validation flag. -/
structure MIter where
  docs : List Doc
  validate : Bool

/-- `Manager.FindEach` (manager.go): like `FindAll` but returning a managed
iterator instead of decoding into a slice. -/
def Manager.FindEach {σ : Type} (m : Manager σ) (ctx : Ctx)
    (filter : BsonM) (sort : List String) (skip limit : Int) (lock : Bool)
    (flags : List Flags) (s : σ) : MRes σ MIter :=
  -- require transaction if locked or not unsafe
  if (lock || !(Has (Merge flags) NoTransaction)) && !HasTransaction ctx then
    (s, [], .error .transactionRequired) else
  -- check lock
  if lock && (decide (0 < skip) || decide (0 < limit)) then
    (s, [], .error .cannotLockWithSkipAndLimit) else
  -- translate filter
  match translateDocE m.trans filter with
  | .error e => (s, [], .error e)
  | .ok filterDoc =>
  -- set sort
  match translateSortE m.trans sort with
  | .error e => (s, [], .error e)
  | .ok sortDoc =>
  -- prepare options
  let opts : FindOpts := { sort := sortDoc, skip := if 0 < skip then skip else 0,
                           limit := if 0 < limit then limit else 0 }
  -- lock documents
  let (lockCalls, s1, lockErr) :=
    if lock then
      let (s1, r) := m.coll.updateMany s (.byDoc filterDoc) incrementLock
      match r with
      | .error e => ([Call.updateMany (.byDoc filterDoc) incrementLock], s1, some (Err.driver e))
      | .ok _ => ([Call.updateMany (.byDoc filterDoc) incrementLock], s1, none)
    else ([], s, none)
  match lockErr with
  | some e => (s1, lockCalls, .error e)
  | none =>
  -- find documents
  let (s2, r) := m.coll.find s1 (.byDoc filterDoc) opts
  let calls := lockCalls ++ [Call.find (.byDoc filterDoc) opts]
  match r with
  | .error e => (s2, calls, .error (.driver e))
  | .ok docs =>
    -- determine validation
    (s2, calls, .ok { docs := docs, validate := !(Has (Merge flags) NoValidation) })

/-- Field lookup on a decoded projection item: `item[field]` of the decoded
`map[string]interface{}`, `none` standing for a missing field (Go `nil`). -/
def Doc.getField (d : Doc) (f : String) : Option Int := d.attrs.lookup f

/-- The projection yield loop of `Manager.project`: decode each document to an
`(id, field value)` pair and yield it to `fn` until `fn` returns false or the
cursor is exhausted.  The returned list records the pairs passed to `fn`. -/
def projectYield (fn : ID → Option Int → Bool) (field : String) :
    List Doc → List (ID × Option Int)
  | [] => []
  | d :: ds =>
    if fn d.id (d.getField field) then (d.id, d.getField field) :: projectYield fn field ds
    else [(d.id, d.getField field)]

/-- `Manager.project` (manager.go, lower-case): the shared implementation of
the `Project*` family.  Returns the pairs yielded to `fn`. -/
def Manager.project {σ : Type} (m : Manager σ) (ctx : Ctx) (filter : BsonM)
    (field : String) (sort : List String) (skip limit : Int) (lock : Bool)
    (fn : ID → Option Int → Bool) (flags : List Flags) (s : σ) :
    MRes σ (List (ID × Option Int)) :=
  -- require transaction if locked or not unsafe
  if (lock || !(Has (Merge flags) NoTransaction)) && !HasTransaction ctx then
    (s, [], .error .transactionRequired) else
  -- check lock
  if lock && (decide (0 < skip) || decide (0 < limit)) then
    (s, [], .error .cannotLockWithSkipAndLimit) else
  -- translate filter
  match translateDocE m.trans filter with
  | .error e => (s, [], .error e)
  | .ok filterDoc =>
  -- translate field
  match translateFieldE m.trans field with
  | .error e => (s, [], .error e)
  | .ok field =>
  -- set sort
  match translateSortE m.trans sort with
  | .error e => (s, [], .error e)
  | .ok sortDoc =>
  -- prepare options, set projection
  let opts : FindOpts := { sort := sortDoc, skip := if 0 < skip then skip else 0,
                           limit := if 0 < limit then limit else 0,
                           projection := some field }
  -- lock documents
  let (lockCalls, s1, lockErr) :=
    if lock then
      let (s1, r) := m.coll.updateMany s (.byDoc filterDoc) incrementLock
      match r with
      | .error e => ([Call.updateMany (.byDoc filterDoc) incrementLock], s1, some (Err.driver e))
      | .ok _ => ([Call.updateMany (.byDoc filterDoc) incrementLock], s1, none)
    else ([], s, none)
  match lockErr with
  | some e => (s1, lockCalls, .error e)
  | none =>
  -- find documents
  let (s2, r) := m.coll.find s1 (.byDoc filterDoc) opts
  let calls := lockCalls ++ [Call.find (.byDoc filterDoc) opts]
  match r with
  | .error e => (s2, calls, .error (.driver e))
  | .ok docs =>
    -- iterate, yielding pairs until fn returns false
    (s2, calls, .ok (projectYield fn field docs))

/-- `Manager.Project` (manager.go): return the field of the document with the
specified id and whether it was found; calls `project` with the literal id
filter, limit 1, a stop-after-first callback and the `NoTransaction` flag. -/
def Manager.Project {σ : Type} (m : Manager σ) (ctx : Ctx) (i : ID)
    (field : String) (lock : Bool) (s : σ) : MRes σ (Option Int × Bool) :=
  match m.project ctx (BsonM.idEq i) field [] 0 1 lock (fun _ _ => false) [NoTransaction] s with
  | (s1, calls, .error e) => (s1, calls, .error e)
  | (s1, calls, .ok pairs) =>
    match pairs.head? with
    | some (_, v) => (s1, calls, .ok (v, true))
    | none => (s1, calls, .ok (none, false))

/-- `Manager.ProjectFirst` (manager.go): return the field of the first
matching document and whether one was found. -/
def Manager.ProjectFirst {σ : Type} (m : Manager σ) (ctx : Ctx) (filter : BsonM)
    (field : String) (sort : List String) (skip : Int) (lock : Bool) (s : σ) :
    MRes σ (Option Int × Bool) :=
  match m.project ctx filter field sort skip 1 lock (fun _ _ => false) [NoTransaction] s with
  | (s1, calls, .error e) => (s1, calls, .error e)
  | (s1, calls, .ok pairs) =>
    match pairs.head? with
    | some (_, v) => (s1, calls, .ok (v, true))
    | none => (s1, calls, .ok (none, false))

/-- `Manager.ProjectAll` (manager.go): look up the field for all matching
documents, keyed by id (the Go map is represented as the association list in
yield order). -/
def Manager.ProjectAll {σ : Type} (m : Manager σ) (ctx : Ctx) (filter : BsonM)
    (field : String) (sort : List String) (skip limit : Int) (lock : Bool)
    (flags : List Flags) (s : σ) : MRes σ (List (ID × Option Int)) :=
  m.project ctx filter field sort skip limit lock (fun _ _ => true) flags s

/-- `Manager.ProjectEach` (manager.go): yield the field of every matching
document to `fn` until it returns false. -/
def Manager.ProjectEach {σ : Type} (m : Manager σ) (ctx : Ctx) (filter : BsonM)
    (field : String) (sort : List String) (skip limit : Int) (lock : Bool)
    (fn : ID → Option Int → Bool) (flags : List Flags) (s : σ) :
    MRes σ (List (ID × Option Int)) :=
  m.project ctx filter field sort skip limit lock fn flags s

/-- `Manager.Count` (manager.go): count the matching documents; with `lock`
set it performs a lock-incrementing `UpdateMany` instead and returns the
modified count. -/
def Manager.Count {σ : Type} (m : Manager σ) (ctx : Ctx) (filter : BsonM)
    (skip limit : Int) (lock : Bool) (flags : List Flags) (s : σ) : MRes σ Int :=
  -- require transaction if locked or not unsafe
  if (lock || !(Has (Merge flags) NoTransaction)) && !HasTransaction ctx then
    (s, [], .error .transactionRequired) else
  -- check lock
  if lock && (decide (0 < skip) || decide (0 < limit)) then
    (s, [], .error .cannotLockWithSkipAndLimit) else
  -- translate filter
  match translateDocE m.trans filter with
  | .error e => (s, [], .error e)
  | .ok filterDoc =>
  -- update if locked
  if lock then
    let (s1, r) := m.coll.updateMany s (.byDoc filterDoc) incrementLock
    match r with
    | .error e => (s1, [Call.updateMany (.byDoc filterDoc) incrementLock], .error (.driver e))
    | .ok res => (s1, [Call.updateMany (.byDoc filterDoc) incrementLock], .ok res.modifiedCount)
  else
    -- count documents (skip and limit are only set when positive)
    let skip' := if 0 < skip then skip else 0
    let limit' := if 0 < limit then limit else 0
    let (s1, r) := m.coll.countDocuments s (.byDoc filterDoc) skip' limit'
    match r with
    | .error e => (s1, [Call.countDocuments (.byDoc filterDoc) skip' limit'], .error (.driver e))
    | .ok n => (s1, [Call.countDocuments (.byDoc filterDoc) skip' limit'], .ok n)

/-- `Manager.Distinct` (manager.go): collect the distinct values of a field
over the matching documents, optionally locking them first. -/
def Manager.Distinct {σ : Type} (m : Manager σ) (ctx : Ctx) (field : String)
    (filter : BsonM) (lock : Bool) (flags : List Flags) (s : σ) : MRes σ (List Int) :=
  -- require transaction if locked or not unsafe
  if (lock || !(Has (Merge flags) NoTransaction)) && !HasTransaction ctx then
    (s, [], .error .transactionRequired) else
  -- translate field
  match translateFieldE m.trans field with
  | .error e => (s, [], .error e)
  | .ok field =>
  -- translate filter
  match translateDocE m.trans filter with
  | .error e => (s, [], .error e)
  | .ok filterDoc =>
  -- lock documents
  let (lockCalls, s1, lockErr) :=
    if lock then
      let (s1, r) := m.coll.updateMany s (.byDoc filterDoc) incrementLock
      match r with
      | .error e => ([Call.updateMany (.byDoc filterDoc) incrementLock], s1, some (Err.driver e))
      | .ok _ => ([Call.updateMany (.byDoc filterDoc) incrementLock], s1, none)
    else ([], s, none)
  match lockErr with
  | some e => (s1, lockCalls, .error e)
  | none =>
  -- distinct
  let (s2, r) := m.coll.distinct s1 field (.byDoc filterDoc)
  let calls := lockCalls ++ [Call.distinct field (.byDoc filterDoc)]
  match r with
  | .error e => (s2, calls, .error (.driver e))
  | .ok vals => (s2, calls, .ok vals)

/-- `Manager.InsertIfMissing` (manager.go): atomically upsert the model under
the filter using `$setOnInsert`, returning whether an insert happened
(`res.UpsertedCount == 1`).  `newId` stands for the random id `coal.New()`
assigns to zero-id models. -/
def Manager.InsertIfMissing {σ : Type} (m : Manager σ) (ctx : Ctx) (filter : BsonM)
    (model : ModelArg) (lock : Bool) (flags : List Flags) (newId : ID) (s : σ) :
    MRes σ Bool :=
  -- require transaction
  if lock && !HasTransaction ctx then (s, [], .error .transactionRequired) else
  -- translate filter
  match translateDocE m.trans filter with
  | .error e => (s, [], .error e)
  | .ok filterDoc =>
  -- check model
  if model.meta != m.meta then (s, [], .error .metaMismatch) else
  -- ensure id
  let model := if model.doc.id == "" then { model with doc := { model.doc with id := newId } }
               else model
  -- validate model
  let vErr : Option VErr :=
    if !(Has (Merge flags) NoValidation) then m.validate model.doc else none
  match vErr with
  | some e => (s, [], .error (.validation e))
  | none =>
  -- prepare update `{$setOnInsert: model}` with `$inc: {_lk: 1}` when locked
  let update : BsonD := { insertDoc := some model.doc, incLock := lock }
  -- upsert document
  let (s1, r) := m.coll.updateOne s (.byDoc filterDoc) update true
  match r with
  | .error e => (s1, [Call.updateOne (.byDoc filterDoc) update true], .error (.driver e))
  | .ok res => (s1, [Call.updateOne (.byDoc filterDoc) update true], .ok (res.upsertedCount == 1))

/-- `Manager.Replace` (manager.go): replace the existing document with the
provided model by id; with `lock` the model's lock counter is manually bumped
by 1000 before writing.  Returns whether a document matched. -/
def Manager.Replace {σ : Type} (m : Manager σ) (ctx : Ctx) (model : ModelArg)
    (lock : Bool) (flags : List Flags) (s : σ) : MRes σ Bool :=
  -- check model
  if model.meta != m.meta then (s, [], .error .metaMismatch) else
  -- check id
  if model.doc.id == "" then (s, [], .error .zeroID) else
  -- require transaction
  if lock && !HasTransaction ctx then (s, [], .error .transactionRequired) else
  -- validate model
  let vErr : Option VErr :=
    if !(Has (Merge flags) NoValidation) then m.validate model.doc else none
  match vErr with
  | some e => (s, [], .error (.validation e))
  | none =>
  -- increment lock manually
  let model := if lock then { model with doc := { model.doc with lock := model.doc.lock + 1000 } }
               else model
  -- replace document
  let (s1, r) := m.coll.replaceOne s (.byId model.doc.id) model.doc
  match r with
  | .error e => (s1, [Call.replaceOne (.byId model.doc.id) model.doc], .error (.driver e))
  | .ok res => (s1, [Call.replaceOne (.byId model.doc.id) model.doc], .ok (res.matchedCount == 1))

/-- `Manager.ReplaceFirst` (manager.go): replace the first document matching
the filter (no zero-id check, the match is by filter).  Returns whether a
document matched. -/
def Manager.ReplaceFirst {σ : Type} (m : Manager σ) (ctx : Ctx) (filter : BsonM)
    (model : ModelArg) (lock : Bool) (flags : List Flags) (s : σ) : MRes σ Bool :=
  -- check model
  if model.meta != m.meta then (s, [], .error .metaMismatch) else
  -- require transaction
  if lock && !HasTransaction ctx then (s, [], .error .transactionRequired) else
  -- validate model
  let vErr : Option VErr :=
    if !(Has (Merge flags) NoValidation) then m.validate model.doc else none
  match vErr with
  | some e => (s, [], .error (.validation e))
  | none =>
  -- increment lock manually
  let model := if lock then { model with doc := { model.doc with lock := model.doc.lock + 1000 } }
               else model
  -- translate filter
  match translateDocE m.trans filter with
  | .error e => (s, [], .error e)
  | .ok filterDoc =>
  -- replace document
  let (s1, r) := m.coll.replaceOne s (.byDoc filterDoc) model.doc
  match r with
  | .error e => (s1, [Call.replaceOne (.byDoc filterDoc) model.doc], .error (.driver e))
  | .ok res => (s1, [Call.replaceOne (.byDoc filterDoc) model.doc], .ok (res.matchedCount == 1))

/-- `Manager.Update` (manager.go): apply a translated partial update to the
document with the specified id via an atomic find-and-update; with `lock` a
`$inc._lk` entry is injected into the update document itself. -/
def Manager.Update {σ : Type} (m : Manager σ) (ctx : Ctx) (model : Option ModelArg)
    (i : ID) (update : BsonM) (lock : Bool) (s : σ) : MRes σ (Option Doc) :=
  -- require transaction
  if lock && !HasTransaction ctx then (s, [], .error .transactionRequired) else
  -- check model
  let model := model.getD { meta := m.meta }
  if model.meta != m.meta then (s, [], .error .metaMismatch) else
  -- translate update
  match translateDocE m.trans update with
  | .error e => (s, [], .error e)
  | .ok updateDoc =>
  -- increment lock
  let updateDoc := if lock then putIncLock updateDoc else updateDoc
  -- find and update document
  let opts : FoauOpts := { retAfter := true }
  let (s1, r) := m.coll.findOneAndUpdate s (.byId i) updateDoc opts
  match r with
  | .error e =>
    if IsMissing e then (s1, [Call.findOneAndUpdate (.byId i) updateDoc opts], .ok none)
    else (s1, [Call.findOneAndUpdate (.byId i) updateDoc opts], .error (.driver e))
  | .ok d => (s1, [Call.findOneAndUpdate (.byId i) updateDoc opts], .ok (some d))

/-- `Manager.UpdateFirst` (manager.go): apply a translated partial update to
the first document matching the filter. -/
def Manager.UpdateFirst {σ : Type} (m : Manager σ) (ctx : Ctx) (model : Option ModelArg)
    (filter update : BsonM) (sort : List String) (lock : Bool) (s : σ) :
    MRes σ (Option Doc) :=
  -- require transaction
  if lock && !HasTransaction ctx then (s, [], .error .transactionRequired) else
  -- check model
  let model := model.getD { meta := m.meta }
  if model.meta != m.meta then (s, [], .error .metaMismatch) else
  -- translate filter
  match translateDocE m.trans filter with
  | .error e => (s, [], .error e)
  | .ok filterDoc =>
  -- translate update
  match translateDocE m.trans update with
  | .error e => (s, [], .error e)
  | .ok updateDoc =>
  -- set sort
  match translateSortE m.trans sort with
  | .error e => (s, [], .error e)
  | .ok sortDoc =>
  -- increment lock
  let updateDoc := if lock then putIncLock updateDoc else updateDoc
  -- find and update document
  let opts : FoauOpts := { retAfter := true, sort := sortDoc }
  let (s1, r) := m.coll.findOneAndUpdate s (.byDoc filterDoc) updateDoc opts
  match r with
  | .error e =>
    if IsMissing e then (s1, [Call.findOneAndUpdate (.byDoc filterDoc) updateDoc opts], .ok none)
    else (s1, [Call.findOneAndUpdate (.byDoc filterDoc) updateDoc opts], .error (.driver e))
  | .ok d => (s1, [Call.findOneAndUpdate (.byDoc filterDoc) updateDoc opts], .ok (some d))

/-- `Manager.UpdateAll` (manager.go): apply a translated partial update to all
matching documents, returning the matched count. -/
def Manager.UpdateAll {σ : Type} (m : Manager σ) (ctx : Ctx) (filter update : BsonM)
    (lock : Bool) (s : σ) : MRes σ Int :=
  -- require transaction
  if lock && !HasTransaction ctx then (s, [], .error .transactionRequired) else
  -- translate filter
  match translateDocE m.trans filter with
  | .error e => (s, [], .error e)
  | .ok filterDoc =>
  -- translate update
  match translateDocE m.trans update with
  | .error e => (s, [], .error e)
  | .ok updateDoc =>
  -- increment lock
  let updateDoc := if lock then putIncLock updateDoc else updateDoc
  -- update documents
  let (s1, r) := m.coll.updateMany s (.byDoc filterDoc) updateDoc
  match r with
  | .error e => (s1, [Call.updateMany (.byDoc filterDoc) updateDoc], .error (.driver e))
  | .ok res => (s1, [Call.updateMany (.byDoc filterDoc) updateDoc], .ok res.matchedCount)

/-- `Manager.Upsert` (manager.go): update-or-insert in one atomic
find-and-update with upsert; a random token `tk` (from `coal.New()`) is put
under `$setOnInsert._tk`, and the returned inserted flag is the comparison of
the decoded document's token with `tk`. -/
def Manager.Upsert {σ : Type} (m : Manager σ) (ctx : Ctx) (model : Option ModelArg)
    (filter update : BsonM) (sort : List String) (lock : Bool) (tk : ID) (s : σ) :
    MRes σ (Bool × Option Doc) :=
  -- require transaction
  if lock && !HasTransaction ctx then (s, [], .error .transactionRequired) else
  -- check model
  let model := model.getD { meta := m.meta }
  if model.meta != m.meta then (s, [], .error .metaMismatch) else
  -- translate filter
  match translateDocE m.trans filter with
  | .error e => (s, [], .error e)
  | .ok filterDoc =>
  -- translate update
  match translateDocE m.trans update with
  | .error e => (s, [], .error e)
  | .ok updateDoc =>
  -- increment lock
  let updateDoc := if lock then putIncLock updateDoc else updateDoc
  -- set sort
  match translateSortE m.trans sort with
  | .error e => (s, [], .error e)
  | .ok sortDoc =>
  -- set token (to determine insert vs. update)
  let updateDoc := putInsertToken updateDoc tk
  -- find and update document
  let opts : FoauOpts := { retAfter := true, upsert := true, sort := sortDoc }
  let (s1, r) := m.coll.findOneAndUpdate s (.byDoc filterDoc) updateDoc opts
  match r with
  | .error e =>
    if IsMissing e then
      (s1, [Call.findOneAndUpdate (.byDoc filterDoc) updateDoc opts], .ok (false, none))
    else (s1, [Call.findOneAndUpdate (.byDoc filterDoc) updateDoc opts], .error (.driver e))
  | .ok d =>
    (s1, [Call.findOneAndUpdate (.byDoc filterDoc) updateDoc opts],
     .ok (d.token == tk, some d))

/-- `Manager.Delete` (manager.go): remove the document with the specified id.
With a nil model a plain `DeleteOne` is used and the result is the deleted
count comparison; with a model the document is atomically fetched-and-deleted
and decoded into it. -/
def Manager.Delete {σ : Type} (m : Manager σ) (_ctx : Ctx) (model : Option ModelArg)
    (i : ID) (s : σ) : MRes σ (Bool × Option Doc) :=
  match model with
  | none =>
    -- delete document
    let (s1, r) := m.coll.deleteOne s (.byId i)
    match r with
    | .error e => (s1, [Call.deleteOne (.byId i)], .error (.driver e))
    | .ok res => (s1, [Call.deleteOne (.byId i)], .ok (res.deletedCount == 1, none))
  | some model =>
    -- check model
    if model.meta != m.meta then (s, [], .error .metaMismatch) else
    -- find and delete document
    let (s1, r) := m.coll.findOneAndDelete s (.byId i) none
    match r with
    | .error e =>
      if IsMissing e then (s1, [Call.findOneAndDelete (.byId i) none], .ok (false, none))
      else (s1, [Call.findOneAndDelete (.byId i) none], .error (.driver e))
    | .ok d => (s1, [Call.findOneAndDelete (.byId i) none], .ok (true, some d))

/-- `Manager.DeleteFirst` (manager.go): atomically fetch-and-delete the first
document matching the filter.  `ctx` is unused by the checks (no transaction
or lock is involved) but kept for signature parity. -/
def Manager.DeleteFirst {σ : Type} (m : Manager σ) (_ctx : Ctx) (model : Option ModelArg)
    (filter : BsonM) (sort : List String) (s : σ) : MRes σ (Option Doc) :=
  -- translate filter
  match translateDocE m.trans filter with
  | .error e => (s, [], .error e)
  | .ok filterDoc =>
  -- check model
  let model := model.getD { meta := m.meta }
  if model.meta != m.meta then (s, [], .error .metaMismatch) else
  -- set sort
  match translateSortE m.trans sort with
  | .error e => (s, [], .error e)
  | .ok sortDoc =>
  -- find and delete document
  let (s1, r) := m.coll.findOneAndDelete s (.byDoc filterDoc) sortDoc
  match r with
  | .error e =>
    if IsMissing e then (s1, [Call.findOneAndDelete (.byDoc filterDoc) sortDoc], .ok none)
    else (s1, [Call.findOneAndDelete (.byDoc filterDoc) sortDoc], .error (.driver e))
  | .ok d => (s1, [Call.findOneAndDelete (.byDoc filterDoc) sortDoc], .ok (some d))

/-- The reference driver state: the collection contents plus a counter for
driver-generated ids. -/
structure DB where
  docs : List Doc := []
  fresh : Nat := 0
  deriving Repr, DecidableEq

/-- Driver semantics of applying an update document to a matched document:
the translated update's effect followed by the `$inc: {_lk: 1}` entry when
present; `$setOnInsert` entries are ignored for matched documents. -/
def applyUpdate (u : BsonD) (d : Doc) : Doc :=
  let d := u.app d
  if u.incLock then { d with lock := d.lock + 1 } else d

/-- Driver-generated object id. -/
def genId (n : Nat) : ID := "generated-" ++ toString n

/-- Driver semantics of building the inserted document when an upsert matched
nothing: start from the `$setOnInsert` model (or a blank document) with a
driver-generated id, apply the update operators (`$inc` starting from the
seed) and the `$setOnInsert._tk` token entry.  (Equality conditions of the
filter also seed the document in MongoDB; the translated filter is an opaque
predicate here, so they are not recovered — no claim depends on them.) -/
def upsertNewDoc (u : BsonD) (newId : ID) : Doc :=
  let seed : Doc :=
    match u.insertDoc with
    | some d => if d.id == "" then { d with id := newId } else d
    | none => { id := newId }
  let d := u.app seed
  let d := if u.incLock then { d with lock := d.lock + 1 } else d
  match u.insertToken with
  | some tk => { d with token := tk }
  | none => d

/-- Replace the first document satisfying `p` by its image under `f`,
returning the new list, the old document and the new document. -/
def updateFirstMatch (p : Doc → Bool) (f : Doc → Doc) :
    List Doc → Option (List Doc × Doc × Doc)
  | [] => none
  | d :: ds =>
    if p d then some (f d :: ds, d, f d)
    else
      match updateFirstMatch p f ds with
      | some (ds', o, n) => some (d :: ds', o, n)
      | none => none

/-- Remove the first document satisfying `p`, returning the rest and it. -/
def removeFirstMatch (p : Doc → Bool) : List Doc → Option (List Doc × Doc)
  | [] => none
  | d :: ds =>
    if p d then some (ds, d)
    else
      match removeFirstMatch p ds with
      | some (ds', x) => some (d :: ds', x)
      | none => none

/-- Apply cursor skip/limit options to a result list (limit 0 means no limit). -/
def applySkipLimit (o : FindOpts) (l : List Doc) : List Doc :=
  let l := l.drop o.skip.toNat
  if 0 < o.limit then l.take o.limit.toNat else l

/-- The reference collection: standard document-store semantics over `DB`.
Only `findOne`/`findOneAndUpdate`/`findOneAndDelete` can fail, with the
missing-document error; sorts are not interpreted (first match in insertion
order). -/
def refColl : Collection DB where
  findOne := fun db f _o =>
    match db.docs.find? (Filter.matches f) with
    | some d => (db, .ok d)
    | none => (db, .error .noDocuments)
  findOneAndUpdate := fun db f u o =>
    match updateFirstMatch (Filter.matches f) (applyUpdate u) db.docs with
    | some (docs, old, new) =>
      ({ db with docs := docs }, .ok (if o.retAfter then new else old))
    | none =>
      if o.upsert then
        let nd := upsertNewDoc u (genId db.fresh)
        ({ docs := db.docs ++ [nd], fresh := db.fresh + 1 },
         if o.retAfter then .ok nd else .error .noDocuments)
      else (db, .error .noDocuments)
  findOneAndDelete := fun db f _sort =>
    match removeFirstMatch (Filter.matches f) db.docs with
    | some (docs, d) => ({ db with docs := docs }, .ok d)
    | none => (db, .error .noDocuments)
  find := fun db f o => (db, .ok (applySkipLimit o (db.docs.filter (Filter.matches f))))
  countDocuments := fun db f skip limit =>
    let l := (db.docs.filter (Filter.matches f)).drop skip.toNat
    let l := if 0 < limit then l.take limit.toNat else l
    (db, .ok (l.length : Int))
  distinct := fun db field f =>
    (db, .ok (((db.docs.filter (Filter.matches f)).filterMap
      (fun d => d.attrs.lookup field)).dedup))
  updateOne := fun db f u ups =>
    match updateFirstMatch (Filter.matches f) (applyUpdate u) db.docs with
    | some (docs, _, _) =>
      ({ db with docs := docs }, .ok { matchedCount := 1, modifiedCount := 1 })
    | none =>
      if ups then
        ({ docs := db.docs ++ [upsertNewDoc u (genId db.fresh)], fresh := db.fresh + 1 },
         .ok { upsertedCount := 1 })
      else (db, .ok {})
  updateMany := fun db f u =>
    let n := ((db.docs.filter (Filter.matches f)).length : Int)
    ({ db with docs := db.docs.map (fun d => if Filter.matches f d then applyUpdate u d else d) },
     .ok { matchedCount := n, modifiedCount := n })
  replaceOne := fun db f r =>
    match updateFirstMatch (Filter.matches f) (fun d => { r with id := d.id }) db.docs with
    | some (docs, _, _) =>
      ({ db with docs := docs }, .ok { matchedCount := 1, modifiedCount := 1 })
    | none => (db, .ok {})
  insertOne := fun db d => ({ db with docs := db.docs ++ [d] }, .ok ())
  insertMany := fun db ds => ({ db with docs := db.docs ++ ds }, .ok ())
  deleteOne := fun db f =>
    match removeFirstMatch (Filter.matches f) db.docs with
    | some (docs, _) => ({ db with docs := docs }, .ok { deletedCount := 1 })
    | none => (db, .ok { deletedCount := 0 })
  deleteMany := fun db f =>
    let n := ((db.docs.filter (Filter.matches f)).length : Int)
    ({ db with docs := db.docs.filter (fun d => !Filter.matches f d) },
     .ok { deletedCount := n })

/-- Session/transaction events performed by `Store.T`'s driver session. -/
inductive TxEvent
  | sessionStart
  | txStart
  | txCommit
  | txAbort
  deriving Repr, DecidableEq

/-- Outcomes of the session primitives (`StartTransaction`,
`CommitTransaction`) for a run of `Store.T`. -/
structure TxPrims where
  startErr : Option Err := none
  commitErr : Option Err := none

/-- `context.Background()`. -/
def ctxBackground : Ctx := {}

/-- `Store.T` (src/coal/id.go): create a transaction around the callback.  If
the context already carries a transaction the callback is invoked directly on
it; otherwise a session is started with causal consistency and snapshot read
concern, a transaction is begun, and the callback runs on a context tagged as
having a transaction, committing on success and aborting (propagating the
callback's error) on failure.  The returned event list records the session
activity. -/
def Store.T (ctx : Option Ctx) (p : TxPrims) (fn : Ctx → Option Err) :
    Option Err × List TxEvent :=
  -- set context background
  let ctx := ctx.getD ctxBackground
  -- check if transaction already exists
  if HasTransaction ctx then (fn ctx, [])
  else
    -- start session, start transaction
    match p.startErr with
    | some e => (some e, [.sessionStart, .txStart])
    | none =>
      -- call function on the context tagged with the transaction marker
      match fn { ctx with hasTx := true } with
      | some e => (some e, [.sessionStart, .txStart, .txAbort])
      | none =>
        -- commit transaction
        match p.commitErr with
        | some e => (some e, [.sessionStart, .txStart, .txCommit])
        | none => (none, [.sessionStart, .txStart, .txCommit])

/-- Stream event type (src/unnamed/part_006): a string, like the Go `Event`
type, so the zero value `""` of an unclassified operation is representable. -/
abbrev Event := String

/-- The `Opened` event. -/
def Opened : Event := "opened"

/-- The `Resumed` event. -/
def Resumed : Event := "resumed"

/-- The `Created` event. -/
def Created : Event := "created"

/-- The `Updated` event. -/
def Updated : Event := "updated"

/-- The `Deleted` event. -/
def Deleted : Event := "deleted"

/-- The `Errored` event. -/
def Errored : Event := "errored"

/-- The `Stopped` event. -/
def Stopped : Event := "stopped"

/-- A BSON value of an `updateDescription.updatedFields` entry; `null` is the
BSON null, which decodes to a nil Go interface value. -/
inductive BVal
  | null
  | num (n : Int)
  deriving Repr, DecidableEq

/-- A raw change-stream notification (the `change` struct of part_006).  The
resume token (`bson.Raw` bytes) is opaque; the full document is `none` when
the raw document has zero length, and is otherwise taken as already decoded
(`bson.Unmarshal` of a well-formed raw document). -/
structure Change where
  resumeToken : Nat
  operationType : String
  docKey : ID := ""
  fullDocument : Option Doc := none
  updatedFields : List (String × BVal) := []
  removedFields : List String := []
  deriving Repr, DecidableEq

/-- Go map lookup `ch.UpdateDescription.UpdatedFields[k] != nil`: the key is
present and its value is not BSON null. -/
def lookupNonNil (k : String) (m : List (String × BVal)) : Bool :=
  match m.lookup k with
  | some v => v != BVal.null
  | none => false

/-- The stream's mutable state across the tail loop: the stored resume token
and whether the stream has been opened before. -/
structure StreamState where
  token : Option Nat := none
  opened : Bool := false
  deriving Repr, DecidableEq

/-- One receiver invocation: event, document id, full document, error and
resume token, as passed to the `Receiver` callback. -/
abbrev RcvCall := Event × ID × Option Doc × Option Err × Option Nat

/-- The receiver callback: returns an error to stop the stream. -/
abbrev Receiver := Event → ID → Option Doc → Option Err → Option Nat → Option Err

/-- The body of the `cs.Next` loop of `Stream.tail` (part_006) for one raw
change: classify the operation type (the literal case list of the source,
including its `"renamed"` string), skip lock-only or documentless
created/updated events while saving the resume token, otherwise deliver the
event to the receiver and save the token on success.  Returns the new state,
the receiver invocations made, and `some e` when the loop exits with error
`e` (`ErrInvalidated` or a receiver error). -/
def tailStep (rcv : Receiver) (st : StreamState) (ch : Change) :
    StreamState × List RcvCall × Option Err :=
  -- prepare type
  if ch.operationType == "drop" || ch.operationType == "renamed" ||
     ch.operationType == "dropDatabase" || ch.operationType == "invalidate" then
    (st, [], some Err.invalidated)
  else
    let event : Event :=
      if ch.operationType == "insert" then Created
      else if ch.operationType == "replace" || ch.operationType == "update" then Updated
      else if ch.operationType == "delete" then Deleted
      else ""
    -- unmarshal document for created and updated events
    if event == Created || event == Updated then
      -- determine if just locked
      let locked := event == Updated &&
        ch.removedFields.length == 0 &&
        ch.updatedFields.length == 1 &&
        lookupNonNil "_lk" ch.updatedFields
      -- continue if the document has just been locked or is unavailable
      if locked || ch.fullDocument.isNone then
        -- save token
        ({ st with token := some ch.resumeToken }, [], none)
      else
        -- decode document and call receiver
        let doc := ch.fullDocument.getD {}
        match rcv event ch.docKey (some doc) none (some ch.resumeToken) with
        | some e => (st, [(event, ch.docKey, some doc, none, some ch.resumeToken)], some e)
        | none =>
          -- save token
          ({ st with token := some ch.resumeToken },
           [(event, ch.docKey, some doc, none, some ch.resumeToken)], none)
    else
      -- call receiver (deleted events and the zero event carry no document)
      match rcv event ch.docKey none none (some ch.resumeToken) with
      | some e => (st, [(event, ch.docKey, none, none, some ch.resumeToken)], some e)
      | none =>
        -- save token
        ({ st with token := some ch.resumeToken },
         [(event, ch.docKey, none, none, some ch.resumeToken)], none)

/-- Fold `tailStep` over the raw changes a live feed delivers, stopping at the
first exit error. -/
def tailRun (rcv : Receiver) : StreamState → List Change →
    StreamState × List RcvCall × Option Err
  | st, [] => (st, [], none)
  | st, ch :: rest =>
    match tailStep rcv st ch with
    | (st', calls, some e) => (st', calls, some e)
    | (st', calls, none) =>
      let (st'', calls', r) := tailRun rcv st' rest
      (st'', calls ++ calls', r)

/-- `Stream.tail` (part_006) for one established feed delivering `changes`:
signal `Opened` the first time (or `Resumed` on re-establishment), set the
opened flag, then process the changes. -/
def Stream.tail (rcv : Receiver) (st : StreamState) (changes : List Change) :
    StreamState × List RcvCall × Option Err :=
  let signal := if !st.opened then Opened else Resumed
  match rcv signal "" none none st.token with
  | some e => (st, [(signal, "", none, none, st.token)], some e)
  | none =>
    let st := { st with opened := true }
    let (st', calls, r) := tailRun rcv st changes
    (st', (signal, "", none, none, st.token) :: calls, r)

/-- A translator for concrete instantiations: caller maps translate to the
trivial all-matching identity document (`{}`), the manager-built id filter to
an id-equality predicate, and sorts and fields to themselves. -/
def idTrans : Translator where
  document := fun bm =>
    match bm with
    | .idEq i => .ok { pred := fun d => d.id == i }
    | .raw _ => .ok {}
  sort := fun l => .ok l
  field := fun f => .ok f

/-- A driver whose every operation fails with a non-missing error, for
exercising genuine driver-error propagation. -/
def errColl : Collection Unit where
  findOne := fun s _ _ => (s, .error (.other 7))
  findOneAndUpdate := fun s _ _ _ => (s, .error (.other 7))
  findOneAndDelete := fun s _ _ => (s, .error (.other 7))
  find := fun s _ _ => (s, .error (.other 7))
  countDocuments := fun s _ _ _ => (s, .error (.other 7))
  distinct := fun s _ _ => (s, .error (.other 7))
  updateOne := fun s _ _ _ => (s, .error (.other 7))
  updateMany := fun s _ _ => (s, .error (.other 7))
  replaceOne := fun s _ _ => (s, .error (.other 7))
  insertOne := fun s _ => (s, .error (.other 7))
  insertMany := fun s _ => (s, .error (.other 7))
  deleteOne := fun s _ => (s, .error (.other 7))
  deleteMany := fun s _ => (s, .error (.other 7))

/-- A concrete manager over the reference driver, for witnesses. -/
def mRef : Manager DB where
  meta := 0
  coll := refColl
  trans := idTrans
  validate := fun _ => none

/-- A concrete manager over the failing driver, for witnesses. -/
def mErr : Manager Unit where
  meta := 0
  coll := errColl
  trans := idTrans
  validate := fun _ => none

/-- A driver whose single-document reads report a missing document and whose
writes match nothing, for exercising the not-found paths. -/
def missColl : Collection Unit where
  findOne := fun s _ _ => (s, .error .noDocuments)
  findOneAndUpdate := fun s _ _ _ => (s, .error .noDocuments)
  findOneAndDelete := fun s _ _ => (s, .error .noDocuments)
  find := fun s _ _ => (s, .ok [])
  countDocuments := fun s _ _ _ => (s, .ok 0)
  distinct := fun s _ _ => (s, .ok [])
  updateOne := fun s _ _ _ => (s, .ok {})
  updateMany := fun s _ _ => (s, .ok {})
  replaceOne := fun s _ _ => (s, .ok {})
  insertOne := fun s _ => (s, .ok ())
  insertMany := fun s _ => (s, .ok ())
  deleteOne := fun s _ => (s, .ok {})
  deleteMany := fun s _ => (s, .ok {})

/-- A concrete manager over the missing-document driver, for witnesses. -/
def mMiss : Manager Unit where
  meta := 0
  coll := missColl
  trans := idTrans
  validate := fun _ => none

/-- A context without a transaction marker. -/
def noTxCtx : Ctx := {}

/-- A context carrying the transaction marker. -/
def txCtx : Ctx := { hasTx := true }

/-- C1: every manager operation that accepts a lock parameter, called with
`lock = true` while the context carries no active transaction, returns the
`ErrTransactionRequired` error with no driver call made and the driver state
unchanged.  (`Replace` checks its meta and zero-id preconditions first, so a
matching model with a non-zero id is assumed there.) -/
theorem c1_lock_requires_transaction {σ : Type} (m : Manager σ) (s : σ) (ctx : Ctx)
    (model : Option ModelArg) (ma : ModelArg) (dc : Doc) (i : ID) (f u : BsonM)
    (field : String) (sort : List String) (skip limit : Int) (flags : List Flags)
    (fn : ID → Option Int → Bool) (tk newId : ID)
    (hctx : HasTransaction ctx = false)
    (hid : (dc.id == "") = false) :
    m.Find ctx model i true flags s = (s, [], .error .transactionRequired) ∧
    m.FindFirst ctx model f sort skip true flags s = (s, [], .error .transactionRequired) ∧
    m.FindAll ctx (.slice m.meta) f sort skip limit true flags s
      = (s, [], .error .transactionRequired) ∧
    m.FindEach ctx f sort skip limit true flags s = (s, [], .error .transactionRequired) ∧
    m.Project ctx i field true s = (s, [], .error .transactionRequired) ∧
    m.ProjectFirst ctx f field sort skip true s = (s, [], .error .transactionRequired) ∧
    m.ProjectAll ctx f field sort skip limit true flags s
      = (s, [], .error .transactionRequired) ∧
    m.ProjectEach ctx f field sort skip limit true fn flags s
      = (s, [], .error .transactionRequired) ∧
    m.Count ctx f skip limit true flags s = (s, [], .error .transactionRequired) ∧
    m.Distinct ctx field f true flags s = (s, [], .error .transactionRequired) ∧
    m.InsertIfMissing ctx f ma true flags newId s = (s, [], .error .transactionRequired) ∧
    m.Replace ctx { meta := m.meta, doc := dc } true flags s
      = (s, [], .error .transactionRequired) ∧
    m.ReplaceFirst ctx f { meta := m.meta, doc := dc } true flags s
      = (s, [], .error .transactionRequired) ∧
    m.Update ctx model i u true s = (s, [], .error .transactionRequired) ∧
    m.UpdateFirst ctx model f u sort true s = (s, [], .error .transactionRequired) ∧
    m.UpdateAll ctx f u true s = (s, [], .error .transactionRequired) ∧
    m.Upsert ctx model f u sort true tk s = (s, [], .error .transactionRequired) := by
  refine ⟨?_, ?_, ?_, ?_, ?_, ?_, ?_, ?_, ?_, ?_, ?_, ?_, ?_, ?_, ?_, ?_, ?_⟩ <;>
    simp [Manager.Find, Manager.FindFirst, Manager.FindAll, Manager.FindEach,
      Manager.Project, Manager.ProjectFirst, Manager.ProjectAll, Manager.ProjectEach,
      Manager.project, Manager.Count, Manager.Distinct, Manager.InsertIfMissing,
      Manager.Replace, Manager.ReplaceFirst, Manager.Update, Manager.UpdateFirst,
      Manager.UpdateAll, Manager.Upsert, hctx, hid]

/-- Witness for C1 at a concrete manager, context and arguments. -/
theorem c1_witness :
    mErr.Find noTxCtx none "i1" true [] () = ((), [], .error .transactionRequired) ∧
    mErr.FindFirst noTxCtx none (.raw 0) [] 0 true [] ()
      = ((), [], .error .transactionRequired) ∧
    mErr.FindAll noTxCtx (.slice mErr.meta) (.raw 0) [] 0 0 true [] ()
      = ((), [], .error .transactionRequired) ∧
    mErr.FindEach noTxCtx (.raw 0) [] 0 0 true [] ()
      = ((), [], .error .transactionRequired) ∧
    mErr.Project noTxCtx "i1" "f" true () = ((), [], .error .transactionRequired) ∧
    mErr.ProjectFirst noTxCtx (.raw 0) "f" [] 0 true ()
      = ((), [], .error .transactionRequired) ∧
    mErr.ProjectAll noTxCtx (.raw 0) "f" [] 0 0 true []  ()
      = ((), [], .error .transactionRequired) ∧
    mErr.ProjectEach noTxCtx (.raw 0) "f" [] 0 0 true (fun _ _ => true) [] ()
      = ((), [], .error .transactionRequired) ∧
    mErr.Count noTxCtx (.raw 0) 0 0 true [] () = ((), [], .error .transactionRequired) ∧
    mErr.Distinct noTxCtx "f" (.raw 0) true [] () = ((), [], .error .transactionRequired) ∧
    mErr.InsertIfMissing noTxCtx (.raw 0) { meta := 0, doc := { id := "a" } } true [] "n" ()
      = ((), [], .error .transactionRequired) ∧
    mErr.Replace noTxCtx { meta := mErr.meta, doc := { id := "a" } } true [] ()
      = ((), [], .error .transactionRequired) ∧
    mErr.ReplaceFirst noTxCtx (.raw 0) { meta := mErr.meta, doc := { id := "a" } } true [] ()
      = ((), [], .error .transactionRequired) ∧
    mErr.Update noTxCtx none "i1" (.raw 1) true () = ((), [], .error .transactionRequired) ∧
    mErr.UpdateFirst noTxCtx none (.raw 0) (.raw 1) [] true ()
      = ((), [], .error .transactionRequired) ∧
    mErr.UpdateAll noTxCtx (.raw 0) (.raw 1) true () = ((), [], .error .transactionRequired) ∧
    mErr.Upsert noTxCtx none (.raw 0) (.raw 1) [] true "t" ()
      = ((), [], .error .transactionRequired) :=
  c1_lock_requires_transaction mErr () noTxCtx none { meta := 0, doc := { id := "a" } }
    { id := "a" } "i1" (.raw 0) (.raw 1) "f" [] 0 0 [] (fun _ _ => true) "t" "n"
    (by decide) (by decide)

/-- Locating the first match in a decomposed list: if nothing in `pre`
matches and `d` does, the first match of `pre ++ d :: post` is `d`. -/
theorem updateFirstMatch_append_cons (p : Doc → Bool) (f : Doc → Doc)
    (pre post : List Doc) (d : Doc)
    (hpre : ∀ x ∈ pre, p x = false) (hd : p d = true) :
    updateFirstMatch p f (pre ++ d :: post) = some (pre ++ f d :: post, d, f d) := by
  induction pre with
  | nil => simp [updateFirstMatch, hd]
  | cons a as ih =>
    have ha : p a = false := hpre a (by simp)
    have ih' := ih (fun x hx => hpre x (by simp [hx]))
    simp [updateFirstMatch, ha, ih']

/-- C2: `Find(id, lock=true)` inside a transaction performs exactly one
driver call — an atomic find-and-update carrying the `incrementLock` update
and the return-after option — which increments the lock counter of the
matched document by one in the database, and returns the post-increment
document. -/
theorem c2_find_lock_increments (mt : Meta) (tr : Translator) (v : Doc → Option VErr)
    (ctx : Ctx) (model : Option ModelArg) (i : ID) (flags : List Flags)
    (pre post : List Doc) (d : Doc) (fresh : Nat)
    (hctx : HasTransaction ctx = true)
    (hm : ∀ a ∈ model, a.meta = mt)
    (hpre : ∀ x ∈ pre, (x.id == i) = false)
    (hd : (d.id == i) = true)
    (hval : v { d with lock := d.lock + 1 } = none) :
    Manager.Find { meta := mt, coll := refColl, trans := tr, validate := v }
      ctx model i true flags { docs := pre ++ d :: post, fresh := fresh }
      = ({ docs := pre ++ { d with lock := d.lock + 1 } :: post, fresh := fresh },
         [Call.findOneAndUpdate (.byId i) incrementLock returnAfterUpdate],
         .ok (some { d with lock := d.lock + 1 })) := by
  have hupd : updateFirstMatch (Filter.matches (.byId i)) (applyUpdate incrementLock)
      (pre ++ d :: post)
      = some (pre ++ { d with lock := d.lock + 1 } :: post, d, { d with lock := d.lock + 1 }) := by
    have h := updateFirstMatch_append_cons (Filter.matches (.byId i))
      (applyUpdate incrementLock) pre post d
      (by intro x hx; simpa [Filter.matches] using hpre x hx)
      (by simpa [Filter.matches] using hd)
    simpa [applyUpdate, incrementLock] using h
  cases model with
  | none =>
    simp [Manager.Find, hctx, refColl, returnAfterUpdate, hupd, hval]
  | some a =>
    have ha : a.meta = mt := hm a rfl
    simp [Manager.Find, hctx, ha, refColl, returnAfterUpdate, hupd, hval]

/-- Witness for C2: a one-document database, lock counter 3 before, 4 after. -/
theorem c2_witness :
    Manager.Find { meta := 0, coll := refColl, trans := idTrans, validate := fun _ => none }
      txCtx none "i1" true [] { docs := [{ id := "i1", lock := 3 }], fresh := 0 }
      = ({ docs := [{ id := "i1", lock := 4 }], fresh := 0 },
         [Call.findOneAndUpdate (.byId "i1") incrementLock returnAfterUpdate],
         .ok (some { id := "i1", lock := 4 })) :=
  c2_find_lock_increments 0 idTrans (fun _ => none) txCtx none "i1" [] [] []
    { id := "i1", lock := 3 } 0 rfl (by simp) (by simp) (by decide) rfl

/-- The lock increment of an update document does not affect the token field. -/
theorem applyUpdate_token (u : BsonD) (d : Doc) :
    (applyUpdate u d).token = (u.app d).token := by
  by_cases h : u.incLock <;> simp [applyUpdate, h]

/-- C3: (1) for any driver, whenever `Upsert` succeeds with a decoded
document, the returned inserted flag is exactly the comparison of that
document's token with the `$setOnInsert` token embedded by this call; (2) on
the reference driver, an upsert whose filter matches an existing document —
and whose fresh token differs from the token of the updated document, as a
random token does — returns `inserted = false` together with the updated
pre-existing document. -/
theorem c3_upsert_token :
    (∀ (σ : Type) (m : Manager σ) (ctx : Ctx) (model : Option ModelArg)
       (f u : BsonM) (sort : List String) (lock : Bool) (tk : ID) (s s' : σ)
       (calls : List Call) (ins : Bool) (d : Doc),
       m.Upsert ctx model f u sort lock tk s = (s', calls, .ok (ins, some d)) →
       ins = (d.token == tk)) ∧
    (∀ (mt : Meta) (tr : Translator) (v : Doc → Option VErr) (ctx : Ctx)
       (model : Option ModelArg) (f u : BsonM) (sort : List String) (lock : Bool)
       (tk : ID) (fd ud : BsonD) (sd : Option SortD) (pre post : List Doc)
       (d : Doc) (fresh : Nat)
       (_hl : (lock && !HasTransaction ctx) = false)
       (_hm : ∀ a ∈ model, a.meta = mt)
       (_hf : tr.document f = .ok fd)
       (_hu : tr.document u = .ok ud)
       (_hs : translateSortE tr sort = .ok sd)
       (_hpre : ∀ x ∈ pre, fd.pred x = false)
       (_hd : fd.pred d = true)
       (_htk : ((ud.app d).token == tk) = false),
       Manager.Upsert { meta := mt, coll := refColl, trans := tr, validate := v }
         ctx model f u sort lock tk { docs := pre ++ d :: post, fresh := fresh }
         = ({ docs := pre ++
                applyUpdate (putInsertToken (if lock then putIncLock ud else ud) tk) d :: post,
              fresh := fresh },
            [Call.findOneAndUpdate (.byDoc fd)
              (putInsertToken (if lock then putIncLock ud else ud) tk)
              { retAfter := true, upsert := true, sort := sd }],
            .ok (false,
              some (applyUpdate (putInsertToken (if lock then putIncLock ud else ud) tk) d)))) := by
  constructor
  · intro σ m ctx model f u sort lock tk s s' calls ins d
    unfold Manager.Upsert
    repeat' split
    all_goals intro h
    all_goals by_cases hmeta : (model.getD { meta := m.meta, doc := ({} : Doc) }).meta = m.meta
    all_goals (try simp [hmeta] at h)
    all_goals (try (repeat split at h))
    all_goals (try simp_all)
    all_goals (obtain ⟨h1, h2, hins, hdd⟩ := h; subst hdd; exact hins.symm)
  · intro mt tr v ctx model f u sort lock tk fd ud sd pre post d fresh
      hl hm hf hu hs hpre hd htk
    have happ : (putInsertToken (if lock then putIncLock ud else ud) tk).app = ud.app := by
      cases lock <;> rfl
    have htok : ((applyUpdate (putInsertToken (if lock then putIncLock ud else ud) tk) d).token
        == tk) = false := by
      rw [applyUpdate_token, happ]; exact htk
    have hupd := updateFirstMatch_append_cons (Filter.matches (.byDoc fd))
      (applyUpdate (putInsertToken (if lock then putIncLock ud else ud) tk)) pre post d
      (by intro x hx; simpa [Filter.matches] using hpre x hx)
      (by simpa [Filter.matches] using hd)
    cases model with
    | none =>
      simp [Manager.Upsert, hl, translateDocE, hf, hu, hs, refColl, hupd, htok]
    | some a =>
      have ha : a.meta = mt := hm a rfl
      simp [Manager.Upsert, hl, ha, translateDocE, hf, hu, hs, refColl, hupd, htok]

/-- Witness for C3: both parts at a one-document database whose stored token
differs from the fresh call token. -/
theorem c3_witness :
    (false = (({ id := "x", token := "t0" } : Doc).token == "t")) ∧
    Manager.Upsert { meta := 0, coll := refColl, trans := idTrans, validate := fun _ => none }
      noTxCtx none (.raw 0) (.raw 1) [] false "t"
      { docs := [{ id := "x", token := "t0" }], fresh := 0 }
      = ({ docs := [{ id := "x", token := "t0" }], fresh := 0 },
         [Call.findOneAndUpdate (.byDoc {}) (putInsertToken {} "t")
           { retAfter := true, upsert := true, sort := none }],
         .ok (false, some { id := "x", token := "t0" })) :=
  ⟨c3_upsert_token.1 DB
      { meta := 0, coll := refColl, trans := idTrans, validate := fun _ => none }
      noTxCtx none (.raw 0) (.raw 1) [] false "t"
      { docs := [{ id := "x", token := "t0" }], fresh := 0 }
      { docs := [{ id := "x", token := "t0" }], fresh := 0 }
      [Call.findOneAndUpdate (.byDoc {}) (putInsertToken {} "t")
        { retAfter := true, upsert := true, sort := none }]
      false { id := "x", token := "t0" } rfl,
   c3_upsert_token.2 0 idTrans (fun _ => none) noTxCtx none (.raw 0) (.raw 1) [] false
      "t" {} {} none [] [] { id := "x", token := "t0" } 0 rfl (by simp) rfl rfl rfl
      (by simp) rfl (by decide)⟩

/-- C4: each single-document operation maps the driver's missing-document
outcome to `(found = false, no error)` and maps any other driver error to a
returned wrapped error — the two outcomes are never collapsed.  `Replace`,
`ReplaceFirst` and the nil-model `Delete` path signal not-found through a
zero matched/deleted count, stated here via their general count-comparison
results. -/
theorem c4_missing_vs_error {σ : Type} (m : Manager σ) (s s₂ : σ) (ctx : Ctx)
    (i : ID) (f u : BsonM) (sort : List String) (fd ud : BsonD) (sd : Option SortD)
    (flags : List Flags) (tk : ID) (dc : Doc) (n : Nat) (dr : DeleteResult)
    (r : UpdateResult)
    (hf : translateDocE m.trans f = .ok fd)
    (hu : translateDocE m.trans u = .ok ud)
    (hs : translateSortE m.trans sort = .ok sd)
    (hv : m.validate dc = none)
    (hid : (dc.id == "") = false) :
    (m.coll.findOne s (.byId i) {} = (s₂, .error .noDocuments) →
      m.Find ctx none i false flags s = (s₂, [Call.findOne (.byId i) {}], .ok none)) ∧
    (m.coll.findOne s (.byId i) {} = (s₂, .error (.other n)) →
      m.Find ctx none i false flags s
        = (s₂, [Call.findOne (.byId i) {}], .error (.driver (.other n)))) ∧
    (m.coll.findOne s (.byDoc fd) { sort := sd, skip := 0 } = (s₂, .error .noDocuments) →
      m.FindFirst ctx none f sort 0 false flags s
        = (s₂, [Call.findOne (.byDoc fd) { sort := sd, skip := 0 }], .ok none)) ∧
    (m.coll.findOne s (.byDoc fd) { sort := sd, skip := 0 } = (s₂, .error (.other n)) →
      m.FindFirst ctx none f sort 0 false flags s
        = (s₂, [Call.findOne (.byDoc fd) { sort := sd, skip := 0 }],
           .error (.driver (.other n)))) ∧
    (m.coll.findOneAndUpdate s (.byId i) ud { retAfter := true } = (s₂, .error .noDocuments) →
      m.Update ctx none i u false s
        = (s₂, [Call.findOneAndUpdate (.byId i) ud { retAfter := true }], .ok none)) ∧
    (m.coll.findOneAndUpdate s (.byId i) ud { retAfter := true } = (s₂, .error (.other n)) →
      m.Update ctx none i u false s
        = (s₂, [Call.findOneAndUpdate (.byId i) ud { retAfter := true }],
           .error (.driver (.other n)))) ∧
    (m.coll.findOneAndUpdate s (.byDoc fd) ud { retAfter := true, sort := sd }
        = (s₂, .error .noDocuments) →
      m.UpdateFirst ctx none f u sort false s
        = (s₂, [Call.findOneAndUpdate (.byDoc fd) ud { retAfter := true, sort := sd }],
           .ok none)) ∧
    (m.coll.findOneAndUpdate s (.byDoc fd) ud { retAfter := true, sort := sd }
        = (s₂, .error (.other n)) →
      m.UpdateFirst ctx none f u sort false s
        = (s₂, [Call.findOneAndUpdate (.byDoc fd) ud { retAfter := true, sort := sd }],
           .error (.driver (.other n)))) ∧
    (m.coll.findOneAndUpdate s (.byDoc fd) (putInsertToken ud tk)
        { retAfter := true, upsert := true, sort := sd } = (s₂, .error .noDocuments) →
      m.Upsert ctx none f u sort false tk s
        = (s₂, [Call.findOneAndUpdate (.byDoc fd) (putInsertToken ud tk)
                 { retAfter := true, upsert := true, sort := sd }], .ok (false, none))) ∧
    (m.coll.findOneAndUpdate s (.byDoc fd) (putInsertToken ud tk)
        { retAfter := true, upsert := true, sort := sd } = (s₂, .error (.other n)) →
      m.Upsert ctx none f u sort false tk s
        = (s₂, [Call.findOneAndUpdate (.byDoc fd) (putInsertToken ud tk)
                 { retAfter := true, upsert := true, sort := sd }],
           .error (.driver (.other n)))) ∧
    (m.coll.deleteOne s (.byId i) = (s₂, .ok dr) →
      m.Delete ctx none i s
        = (s₂, [Call.deleteOne (.byId i)], .ok (dr.deletedCount == 1, none))) ∧
    (m.coll.deleteOne s (.byId i) = (s₂, .error (.other n)) →
      m.Delete ctx none i s
        = (s₂, [Call.deleteOne (.byId i)], .error (.driver (.other n)))) ∧
    (m.coll.findOneAndDelete s (.byId i) none = (s₂, .error .noDocuments) →
      m.Delete ctx (some { meta := m.meta, doc := dc }) i s
        = (s₂, [Call.findOneAndDelete (.byId i) none], .ok (false, none))) ∧
    (m.coll.findOneAndDelete s (.byId i) none = (s₂, .error (.other n)) →
      m.Delete ctx (some { meta := m.meta, doc := dc }) i s
        = (s₂, [Call.findOneAndDelete (.byId i) none], .error (.driver (.other n)))) ∧
    (m.coll.findOneAndDelete s (.byDoc fd) sd = (s₂, .error .noDocuments) →
      m.DeleteFirst ctx none f sort s
        = (s₂, [Call.findOneAndDelete (.byDoc fd) sd], .ok none)) ∧
    (m.coll.findOneAndDelete s (.byDoc fd) sd = (s₂, .error (.other n)) →
      m.DeleteFirst ctx none f sort s
        = (s₂, [Call.findOneAndDelete (.byDoc fd) sd], .error (.driver (.other n)))) ∧
    (m.coll.replaceOne s (.byId dc.id) dc = (s₂, .ok r) →
      m.Replace ctx { meta := m.meta, doc := dc } false flags s
        = (s₂, [Call.replaceOne (.byId dc.id) dc], .ok (r.matchedCount == 1))) ∧
    (m.coll.replaceOne s (.byId dc.id) dc = (s₂, .error (.other n)) →
      m.Replace ctx { meta := m.meta, doc := dc } false flags s
        = (s₂, [Call.replaceOne (.byId dc.id) dc], .error (.driver (.other n)))) ∧
    (m.coll.replaceOne s (.byDoc fd) dc = (s₂, .ok r) →
      m.ReplaceFirst ctx f { meta := m.meta, doc := dc } false flags s
        = (s₂, [Call.replaceOne (.byDoc fd) dc], .ok (r.matchedCount == 1))) ∧
    (m.coll.replaceOne s (.byDoc fd) dc = (s₂, .error (.other n)) →
      m.ReplaceFirst ctx f { meta := m.meta, doc := dc } false flags s
        = (s₂, [Call.replaceOne (.byDoc fd) dc], .error (.driver (.other n)))) := by
  refine ⟨?_, ?_, ?_, ?_, ?_, ?_, ?_, ?_, ?_, ?_, ?_, ?_, ?_, ?_, ?_, ?_, ?_, ?_, ?_, ?_⟩ <;>
    intro h <;>
    simp [Manager.Find, Manager.FindFirst, Manager.Update, Manager.UpdateFirst,
      Manager.Upsert, Manager.Delete, Manager.DeleteFirst, Manager.Replace,
      Manager.ReplaceFirst, IsMissing, hf, hu, hs, hv, hid, h]

/-- Witness for C4 at concrete missing-document and erroring drivers. -/
theorem c4_witness :
    mMiss.Find noTxCtx none "i" false [] () = ((), [Call.findOne (.byId "i") {}], .ok none) ∧
    mErr.Find noTxCtx none "i" false [] ()
      = ((), [Call.findOne (.byId "i") {}], .error (.driver (.other 7))) ∧
    mMiss.FindFirst noTxCtx none (.raw 0) [] 0 false [] ()
      = ((), [Call.findOne (.byDoc {}) { sort := none, skip := 0 }], .ok none) ∧
    mErr.FindFirst noTxCtx none (.raw 0) [] 0 false [] ()
      = ((), [Call.findOne (.byDoc {}) { sort := none, skip := 0 }],
         .error (.driver (.other 7))) ∧
    mMiss.Update noTxCtx none "i" (.raw 1) false ()
      = ((), [Call.findOneAndUpdate (.byId "i") {} { retAfter := true }], .ok none) ∧
    mErr.Update noTxCtx none "i" (.raw 1) false ()
      = ((), [Call.findOneAndUpdate (.byId "i") {} { retAfter := true }],
         .error (.driver (.other 7))) ∧
    mMiss.UpdateFirst noTxCtx none (.raw 0) (.raw 1) [] false ()
      = ((), [Call.findOneAndUpdate (.byDoc {}) {} { retAfter := true, sort := none }],
         .ok none) ∧
    mErr.UpdateFirst noTxCtx none (.raw 0) (.raw 1) [] false ()
      = ((), [Call.findOneAndUpdate (.byDoc {}) {} { retAfter := true, sort := none }],
         .error (.driver (.other 7))) ∧
    mMiss.Upsert noTxCtx none (.raw 0) (.raw 1) [] false "t" ()
      = ((), [Call.findOneAndUpdate (.byDoc {}) (putInsertToken {} "t")
               { retAfter := true, upsert := true, sort := none }], .ok (false, none)) ∧
    mErr.Upsert noTxCtx none (.raw 0) (.raw 1) [] false "t" ()
      = ((), [Call.findOneAndUpdate (.byDoc {}) (putInsertToken {} "t")
               { retAfter := true, upsert := true, sort := none }],
         .error (.driver (.other 7))) ∧
    mMiss.Delete noTxCtx none "i" ()
      = ((), [Call.deleteOne (.byId "i")],
         .ok ((({} : DeleteResult).deletedCount == 1), none)) ∧
    mErr.Delete noTxCtx none "i" ()
      = ((), [Call.deleteOne (.byId "i")], .error (.driver (.other 7))) ∧
    mMiss.Delete noTxCtx (some { meta := 0, doc := { id := "a" } }) "i" ()
      = ((), [Call.findOneAndDelete (.byId "i") none], .ok (false, none)) ∧
    mErr.Delete noTxCtx (some { meta := 0, doc := { id := "a" } }) "i" ()
      = ((), [Call.findOneAndDelete (.byId "i") none], .error (.driver (.other 7))) ∧
    mMiss.DeleteFirst noTxCtx none (.raw 0) [] ()
      = ((), [Call.findOneAndDelete (.byDoc {}) none], .ok none) ∧
    mErr.DeleteFirst noTxCtx none (.raw 0) [] ()
      = ((), [Call.findOneAndDelete (.byDoc {}) none], .error (.driver (.other 7))) ∧
    mMiss.Replace noTxCtx { meta := 0, doc := { id := "a" } } false [] ()
      = ((), [Call.replaceOne (.byId "a") { id := "a" }],
         .ok ((({} : UpdateResult).matchedCount == 1))) ∧
    mErr.Replace noTxCtx { meta := 0, doc := { id := "a" } } false [] ()
      = ((), [Call.replaceOne (.byId "a") { id := "a" }], .error (.driver (.other 7))) ∧
    mMiss.ReplaceFirst noTxCtx (.raw 0) { meta := 0, doc := { id := "a" } } false [] ()
      = ((), [Call.replaceOne (.byDoc {}) { id := "a" }],
         .ok ((({} : UpdateResult).matchedCount == 1))) ∧
    mErr.ReplaceFirst noTxCtx (.raw 0) { meta := 0, doc := { id := "a" } } false [] ()
      = ((), [Call.replaceOne (.byDoc {}) { id := "a" }], .error (.driver (.other 7))) := by
  obtain ⟨a1, a2, a3, a4, a5, a6, a7, a8, a9, a10, a11, a12, a13, a14, a15, a16, a17,
    a18, a19, a20⟩ :=
    c4_missing_vs_error mMiss () () noTxCtx "i" (.raw 0) (.raw 1) [] {} {} none []
      "t" { id := "a" } 7 {} {} rfl rfl rfl rfl (by decide)
  obtain ⟨b1, b2, b3, b4, b5, b6, b7, b8, b9, b10, b11, b12, b13, b14, b15, b16, b17,
    b18, b19, b20⟩ :=
    c4_missing_vs_error mErr () () noTxCtx "i" (.raw 0) (.raw 1) [] {} {} none []
      "t" { id := "a" } 7 {} {} rfl rfl rfl rfl (by decide)
  exact ⟨a1 rfl, b2 rfl, a3 rfl, b4 rfl, a5 rfl, b6 rfl, a7 rfl, b8 rfl, a9 rfl, b10 rfl,
    a11 rfl, b12 rfl, a13 rfl, b14 rfl, a15 rfl, b16 rfl, a17 rfl, b18 rfl, a19 rfl, b20 rfl⟩

/-- C5: the multi-document reads with `lock = false` return the
`ErrTransactionRequired` error with no driver call when the context has no
transaction and the merged flags lack `NoTransaction`; with the
`NoTransaction` flag they proceed to the driver read (the performed call list
is exactly the corresponding driver query). -/
theorem c5_bulk_requires_transaction {σ : Type} (m : Manager σ) (s : σ) (ctx : Ctx)
    (f : BsonM) (field : String) (sort : List String) (skip limit : Int)
    (flags : List Flags) (fn : ID → Option Int → Bool)
    (fd : BsonD) (sd : Option SortD) (field' : String)
    (hctx : HasTransaction ctx = false)
    (hna : Has (Merge flags) NoTransaction = false)
    (hf : translateDocE m.trans f = .ok fd)
    (hs : translateSortE m.trans sort = .ok sd)
    (hfl : translateFieldE m.trans field = .ok field') :
    m.FindAll ctx (.slice m.meta) f sort skip limit false flags s
      = (s, [], .error .transactionRequired) ∧
    m.FindEach ctx f sort skip limit false flags s = (s, [], .error .transactionRequired) ∧
    m.ProjectAll ctx f field sort skip limit false flags s
      = (s, [], .error .transactionRequired) ∧
    m.ProjectEach ctx f field sort skip limit false fn flags s
      = (s, [], .error .transactionRequired) ∧
    m.Count ctx f skip limit false flags s = (s, [], .error .transactionRequired) ∧
    m.Distinct ctx field f false flags s = (s, [], .error .transactionRequired) ∧
    (m.FindAll ctx (.slice m.meta) f sort 0 0 false [NoTransaction] s).2.1
      = [Call.find (.byDoc fd) { sort := sd }] ∧
    (m.FindEach ctx f sort 0 0 false [NoTransaction] s).2.1
      = [Call.find (.byDoc fd) { sort := sd }] ∧
    (m.ProjectAll ctx f field sort 0 0 false [NoTransaction] s).2.1
      = [Call.find (.byDoc fd) { sort := sd, projection := some field' }] ∧
    (m.ProjectEach ctx f field sort 0 0 false fn [NoTransaction] s).2.1
      = [Call.find (.byDoc fd) { sort := sd, projection := some field' }] ∧
    (m.Count ctx f 0 0 false [NoTransaction] s).2.1
      = [Call.countDocuments (.byDoc fd) 0 0] ∧
    (m.Distinct ctx field f false [NoTransaction] s).2.1
      = [Call.distinct field' (.byDoc fd)] := by
  have h1 : Has (Merge [NoTransaction]) NoTransaction = true := by decide
  have h2 : Has (Merge [NoTransaction]) TextScoreSort = false := by decide
  have h3 : Has (Merge [NoTransaction]) NoValidation = false := by decide
  refine ⟨?_, ?_, ?_, ?_, ?_, ?_, ?_, ?_, ?_, ?_, ?_, ?_⟩
  · simp [Manager.FindAll, hctx, hna]
  · simp [Manager.FindEach, hctx, hna]
  · simp [Manager.ProjectAll, Manager.project, hctx, hna]
  · simp [Manager.ProjectEach, Manager.project, hctx, hna]
  · simp [Manager.Count, hctx, hna]
  · simp [Manager.Distinct, hctx, hna]
  · rcases hr : m.coll.find s (Filter.byDoc fd)
        { sort := sd, skip := 0, limit := 0, projection := none } with ⟨s2, r⟩
    cases r with
    | error e => simp [Manager.FindAll, hctx, h1, h2, h3, hf, hs, hr]
    | ok docs =>
      cases hvv : validateAll m.validate docs <;>
        simp [Manager.FindAll, hctx, h1, h2, h3, hf, hs, hr, hvv]
  · rcases hr : m.coll.find s (Filter.byDoc fd)
        { sort := sd, skip := 0, limit := 0, projection := none } with ⟨s2, r⟩
    cases r <;> simp [Manager.FindEach, hctx, h1, h3, hf, hs, hr]
  · rcases hr : m.coll.find s (Filter.byDoc fd)
        { sort := sd, skip := 0, limit := 0, projection := some field' } with ⟨s2, r⟩
    cases r <;> simp [Manager.ProjectAll, Manager.project, hctx, h1, hf, hs, hfl, hr]
  · rcases hr : m.coll.find s (Filter.byDoc fd)
        { sort := sd, skip := 0, limit := 0, projection := some field' } with ⟨s2, r⟩
    cases r <;> simp [Manager.ProjectEach, Manager.project, hctx, h1, hf, hs, hfl, hr]
  · rcases hr : m.coll.countDocuments s (Filter.byDoc fd) 0 0 with ⟨s2, r⟩
    cases r <;> simp [Manager.Count, hctx, h1, hf, hr]
  · rcases hr : m.coll.distinct s field' (Filter.byDoc fd) with ⟨s2, r⟩
    cases r <;> simp [Manager.Distinct, hctx, h1, hf, hfl, hr]

/-- Witness for C5 at the reference driver and an empty database. -/
theorem c5_witness :
    mRef.FindAll noTxCtx (.slice mRef.meta) (.raw 0) [] 0 0 false [] {}
      = ({}, [], .error .transactionRequired) ∧
    mRef.FindEach noTxCtx (.raw 0) [] 0 0 false [] {}
      = ({}, [], .error .transactionRequired) ∧
    mRef.ProjectAll noTxCtx (.raw 0) "f" [] 0 0 false [] {}
      = ({}, [], .error .transactionRequired) ∧
    mRef.ProjectEach noTxCtx (.raw 0) "f" [] 0 0 false (fun _ _ => true) [] {}
      = ({}, [], .error .transactionRequired) ∧
    mRef.Count noTxCtx (.raw 0) 0 0 false [] {} = ({}, [], .error .transactionRequired) ∧
    mRef.Distinct noTxCtx "f" (.raw 0) false [] {}
      = ({}, [], .error .transactionRequired) ∧
    (mRef.FindAll noTxCtx (.slice mRef.meta) (.raw 0) [] 0 0 false [NoTransaction] {}).2.1
      = [Call.find (.byDoc {}) { sort := none }] ∧
    (mRef.FindEach noTxCtx (.raw 0) [] 0 0 false [NoTransaction] {}).2.1
      = [Call.find (.byDoc {}) { sort := none }] ∧
    (mRef.ProjectAll noTxCtx (.raw 0) "f" [] 0 0 false [NoTransaction] {}).2.1
      = [Call.find (.byDoc {}) { sort := none, projection := some "f" }] ∧
    (mRef.ProjectEach noTxCtx (.raw 0) "f" [] 0 0 false (fun _ _ => true) [NoTransaction] {}).2.1
      = [Call.find (.byDoc {}) { sort := none, projection := some "f" }] ∧
    (mRef.Count noTxCtx (.raw 0) 0 0 false [NoTransaction] {}).2.1
      = [Call.countDocuments (.byDoc {}) 0 0] ∧
    (mRef.Distinct noTxCtx "f" (.raw 0) false [NoTransaction] {}).2.1
      = [Call.distinct "f" (.byDoc {})] :=
  c5_bulk_requires_transaction mRef {} noTxCtx (.raw 0) "f" [] 0 0 []
    (fun _ _ => true) {} none "f" rfl (by decide) rfl rfl rfl

/-- C6: when the context already carries the transaction marker, `Store.T`
invokes the callback directly on that very context and returns its result,
performing no session or transaction activity. -/
theorem c6_transaction_reentrant (ctx : Ctx) (p : TxPrims) (fn : Ctx → Option Err)
    (hctx : HasTransaction ctx = true) :
    Store.T (some ctx) p fn = (fn ctx, []) := by
  simp [Store.T, hctx]

/-- Witness for C6: the callback observes the unchanged context payload. -/
theorem c6_witness :
    Store.T (some { hasTx := true, data := 5 }) {} (fun c => some (.receiverErr c.data))
      = (some (.receiverErr 5), []) :=
  c6_transaction_reentrant { hasTx := true, data := 5 } {}
    (fun c => some (.receiverErr c.data)) rfl

/-- C7: an update notification that removed no fields and updated exactly the
internal `_lk` field produces no receiver delivery yet still advances the
stored resume token; other created/updated notifications carrying a full
document are decoded and delivered to the receiver with that document. -/
theorem c7_lock_only_update_skipped (rcv : Receiver) (st : StreamState)
    (ch ch₂ ch₃ : Change) (w : BVal) (d₂ d₃ : Doc)
    (hop : ch.operationType = "update")
    (hrem : ch.removedFields = [])
    (hupd : ch.updatedFields = [("_lk", w)])
    (hw : w ≠ BVal.null) :
    tailStep rcv st ch = ({ st with token := some ch.resumeToken }, [], none) ∧
    (ch₂.operationType = "insert" → ch₂.fullDocument = some d₂ →
      rcv Created ch₂.docKey (some d₂) none (some ch₂.resumeToken) = none →
      tailStep rcv st ch₂
        = ({ st with token := some ch₂.resumeToken },
           [(Created, ch₂.docKey, some d₂, none, some ch₂.resumeToken)], none)) ∧
    (ch₃.operationType = "update" →
      (ch₃.removedFields.length == 0 && ch₃.updatedFields.length == 1 &&
        lookupNonNil "_lk" ch₃.updatedFields) = false →
      ch₃.fullDocument = some d₃ →
      rcv Updated ch₃.docKey (some d₃) none (some ch₃.resumeToken) = none →
      tailStep rcv st ch₃
        = ({ st with token := some ch₃.resumeToken },
           [(Updated, ch₃.docKey, some d₃, none, some ch₃.resumeToken)], none)) := by
  refine ⟨?_, ?_, ?_⟩
  · simp [tailStep, hop, hrem, hupd, lookupNonNil, Created, Updated, Deleted, hw]
  · intro h1 h2 h3
    simp only [Created] at h3
    simp [tailStep, h1, h2, h3, Created, Updated, Deleted]
  · intro h1 h2 h3 h4
    simp only [Updated] at h4
    simp [tailStep, h1, h2, h3, h4, Created, Updated, Deleted]

/-- Witness for C7 at concrete lock-only, insert and mixed-update changes. -/
theorem c7_witness :
    tailStep (fun _ _ _ _ _ => none) {}
      { resumeToken := 1, operationType := "update", docKey := "a",
        updatedFields := [("_lk", BVal.num 2)] }
      = ({ token := some 1 }, [], none) ∧
    tailStep (fun _ _ _ _ _ => none) {}
      { resumeToken := 2, operationType := "insert", docKey := "b",
        fullDocument := some { id := "b" } }
      = ({ token := some 2 }, [(Created, "b", some { id := "b" }, none, some 2)], none) ∧
    tailStep (fun _ _ _ _ _ => none) {}
      { resumeToken := 3, operationType := "update", docKey := "c",
        fullDocument := some { id := "c" },
        updatedFields := [("t", BVal.num 1), ("_lk", BVal.num 1)] }
      = ({ token := some 3 }, [(Updated, "c", some { id := "c" }, none, some 3)], none) := by
  obtain ⟨w1, w2, w3⟩ := c7_lock_only_update_skipped (fun _ _ _ _ _ => none) {}
    { resumeToken := 1, operationType := "update", docKey := "a",
      updatedFields := [("_lk", BVal.num 2)] }
    { resumeToken := 2, operationType := "insert", docKey := "b",
      fullDocument := some { id := "b" } }
    { resumeToken := 3, operationType := "update", docKey := "c",
      fullDocument := some { id := "c" },
      updatedFields := [("t", BVal.num 1), ("_lk", BVal.num 1)] }
    (BVal.num 2) { id := "b" } { id := "c" } rfl rfl rfl (by decide)
  exact ⟨w1, w2 rfl rfl rfl, w3 rfl (by decide) rfl rfl⟩

/-- C8: evaluation at the failing input.  The source's invalidation case list
reads `"drop" | "renamed" | "dropDatabase" | "invalidate"`, so a notification
with the driver's actual `"rename"` operation type is NOT treated as a fatal
invalidated error: it falls through classification, is delivered to the
receiver as the zero event `""` with no document, and tailing continues with
the token advanced — contradicting the claim (and the `ErrInvalidated`
documentation) for the rename case.  The `drop`, `dropDatabase` and
`invalidate` cases do stop tailing with the invalidated error and deliver
nothing, as claimed. -/
theorem c8_rename_not_invalidated :
    tailStep (fun _ _ _ _ _ => none) {}
      { resumeToken := 9, operationType := "rename", docKey := "d1" }
      = ({ token := some 9 }, [("", "d1", none, none, some 9)], none) ∧
    tailStep (fun _ _ _ _ _ => none) {} { resumeToken := 9, operationType := "drop" }
      = ({}, [], some .invalidated) ∧
    tailStep (fun _ _ _ _ _ => none) {} { resumeToken := 9, operationType := "dropDatabase" }
      = ({}, [], some .invalidated) ∧
    tailStep (fun _ _ _ _ _ => none) {} { resumeToken := 9, operationType := "invalidate" }
      = ({}, [], some .invalidated) :=
  ⟨rfl, rfl, rfl, rfl⟩

/-- C9: inside a transaction, `FindFirst` with `lock = true` and a positive
skip is rejected with the cannot-lock-with-skip error, and the multi-document
operations with `lock = true` and a positive skip or limit are rejected with
the cannot-lock-with-skip-and-limit error — in both cases before any driver
call, with the driver state unchanged. -/
theorem c9_lock_skip_limit_rejected {σ : Type} (m : Manager σ) (s : σ) (ctx : Ctx)
    (f : BsonM) (field : String) (sort : List String) (skip limit : Int)
    (flags : List Flags) (fn : ID → Option Int → Bool)
    (hctx : HasTransaction ctx = true)
    (hskip : 0 < skip) (hsl : 0 < skip ∨ 0 < limit) :
    m.FindFirst ctx none f sort skip true flags s = (s, [], .error .cannotLockWithSkip) ∧
    m.FindAll ctx (.slice m.meta) f sort skip limit true flags s
      = (s, [], .error .cannotLockWithSkipAndLimit) ∧
    m.FindEach ctx f sort skip limit true flags s
      = (s, [], .error .cannotLockWithSkipAndLimit) ∧
    m.ProjectFirst ctx f field sort skip true s
      = (s, [], .error .cannotLockWithSkipAndLimit) ∧
    m.ProjectAll ctx f field sort skip limit true flags s
      = (s, [], .error .cannotLockWithSkipAndLimit) ∧
    m.ProjectEach ctx f field sort skip limit true fn flags s
      = (s, [], .error .cannotLockWithSkipAndLimit) ∧
    m.Count ctx f skip limit true flags s
      = (s, [], .error .cannotLockWithSkipAndLimit) := by
  have hb : (decide (0 < skip) || decide (0 < limit)) = true := by
    rcases hsl with h | h <;> simp [h]
  refine ⟨?_, ?_, ?_, ?_, ?_, ?_, ?_⟩ <;>
    simp [Manager.FindFirst, Manager.FindAll, Manager.FindEach, Manager.ProjectFirst,
      Manager.ProjectAll, Manager.ProjectEach, Manager.project, Manager.Count,
      hctx, hskip, hb]

/-- Witness for C9 at skip 1, limit 0. -/
theorem c9_witness :
    mRef.FindFirst txCtx none (.raw 0) [] 1 true [] {}
      = ({}, [], .error .cannotLockWithSkip) ∧
    mRef.FindAll txCtx (.slice mRef.meta) (.raw 0) [] 1 0 true [] {}
      = ({}, [], .error .cannotLockWithSkipAndLimit) ∧
    mRef.FindEach txCtx (.raw 0) [] 1 0 true [] {}
      = ({}, [], .error .cannotLockWithSkipAndLimit) ∧
    mRef.ProjectFirst txCtx (.raw 0) "f" [] 1 true {}
      = ({}, [], .error .cannotLockWithSkipAndLimit) ∧
    mRef.ProjectAll txCtx (.raw 0) "f" [] 1 0 true [] {}
      = ({}, [], .error .cannotLockWithSkipAndLimit) ∧
    mRef.ProjectEach txCtx (.raw 0) "f" [] 1 0 true (fun _ _ => true) [] {}
      = ({}, [], .error .cannotLockWithSkipAndLimit) ∧
    mRef.Count txCtx (.raw 0) 1 0 true [] {}
      = ({}, [], .error .cannotLockWithSkipAndLimit) :=
  c9_lock_skip_limit_rejected mRef {} txCtx (.raw 0) "f" [] 1 0 [] (fun _ _ => true)
    rfl (by decide) (Or.inl (by decide))

/-- C10: `Replace` with a zero-id model returns the zero-id error before any
driver call and regardless of the lock flag; `ReplaceFirst` has no id check
and proceeds with the same zero-id model to the driver's `ReplaceOne` on the
translated filter, returning the matched-count comparison. -/
theorem c10_replace_zero_id {σ : Type} (m : Manager σ) (s s₂ : σ) (ctx : Ctx)
    (lock : Bool) (dc : Doc) (f : BsonM) (fd : BsonD) (flags : List Flags)
    (r : UpdateResult)
    (hid : dc.id = "")
    (hf : translateDocE m.trans f = .ok fd)
    (hv : m.validate dc = none) :
    m.Replace ctx { meta := m.meta, doc := dc } lock flags s = (s, [], .error .zeroID) ∧
    (m.ReplaceFirst ctx f { meta := m.meta, doc := dc } false flags s).2.1
      = [Call.replaceOne (.byDoc fd) dc] ∧
    (m.coll.replaceOne s (.byDoc fd) dc = (s₂, .ok r) →
      m.ReplaceFirst ctx f { meta := m.meta, doc := dc } false flags s
        = (s₂, [Call.replaceOne (.byDoc fd) dc], .ok (r.matchedCount == 1))) := by
  refine ⟨?_, ?_, ?_⟩
  · simp [Manager.Replace, hid]
  · rcases hr : m.coll.replaceOne s (.byDoc fd) dc with ⟨s2, rr⟩
    cases rr <;> simp [Manager.ReplaceFirst, hf, hv, hr]
  · intro h
    simp [Manager.ReplaceFirst, hf, hv, h]

/-- Witness for C10 at a zero-id model and the reference driver. -/
theorem c10_witness :
    mRef.Replace noTxCtx { meta := 0, doc := { attrs := [("t", 1)] } } false [] {}
      = ({}, [], .error .zeroID) ∧
    (mRef.ReplaceFirst noTxCtx (.raw 0) { meta := 0, doc := { attrs := [("t", 1)] } }
        false [] {}).2.1
      = [Call.replaceOne (.byDoc {}) { attrs := [("t", 1)] }] ∧
    mRef.ReplaceFirst noTxCtx (.raw 0) { meta := 0, doc := { attrs := [("t", 1)] } }
        false [] {}
      = ({}, [Call.replaceOne (.byDoc {}) { attrs := [("t", 1)] }],
         .ok ((({} : UpdateResult).matchedCount == 1))) := by
  obtain ⟨w1, w2, w3⟩ :=
    c10_replace_zero_id mRef {} {} noTxCtx false { attrs := [("t", 1)] } (.raw 0) {} [] {}
      rfl rfl rfl
  exact ⟨w1, w2, w3 rfl⟩

end Fire
